import Mathlib

/-!
Verification of the idnits plain-text document parser
(`src/lib/parsers/txt.mjs` and the modules it imports) against its
natural-language specification.

The JavaScript source is shallowly embedded here:

* strings are `List Char` (`Chars`);
* every regular expression of the source is hand-compiled to an
  executable matcher with JavaScript backtracking semantics
  (leftmost match, greedy quantifiers, ordered alternation);
* the `lastIndex` cursor of every module-level regex that the source
  uses statefully (`test` / `exec` on a `g`-flagged regex) is threaded
  explicitly through the parse, because that mutable cursor is
  observable program state shared between separate `parse` calls;
* the scan loop of `parse` becomes a total step function
  `stepLine : ScanState → Chars → ScanState × Option JsError`, where a
  returned error corresponds to a thrown JavaScript exception and the
  returned state holds exactly the mutations performed before the
  throw site.
-/

/-- Strings of the embedded program, as lists of characters. -/
abbrev Chars := List Char

namespace Idnits

/-! ## Character classes (JavaScript regex semantics) -/

/-- Membership in the JavaScript whitespace class `\s` (also the set
removed by `String.prototype.trim`). -/
def jsWhitespace (c : Char) : Bool :=
  c = ' ' ∨ c = '\t' ∨ c = '\n' ∨ c = '\x0b' ∨ c = '\x0c' ∨ c = '\r' ∨
  c = ' ' ∨ c = Char.ofNat 0x1680 ∨
  (Char.ofNat 0x2000 ≤ c ∧ c ≤ Char.ofNat 0x200a) ∨
  c = Char.ofNat 0x2028 ∨ c = Char.ofNat 0x2029 ∨ c = Char.ofNat 0x202f ∨
  c = Char.ofNat 0x205f ∨ c = Char.ofNat 0x3000 ∨ c = Char.ofNat 0xfeff

/-- ASCII decimal digit, the class `[0-9]` (`\d`). -/
def isDigit (c : Char) : Bool :=
  '0' ≤ c ∧ c ≤ '9'

/-- ASCII letter, the class `[a-z]` under the `i` flag. -/
def isAsciiLetter (c : Char) : Bool :=
  ('a' ≤ c ∧ c ≤ 'z') ∨ ('A' ≤ c ∧ c ≤ 'Z')

/-- Word character for the boundary assertion `\b`: `[A-Za-z0-9_]`. -/
def isWordChar (c : Char) : Bool :=
  isAsciiLetter c ∨ isDigit c ∨ c = '_'

/-- Line terminators, which the dot `.` never matches in JavaScript. -/
def isLineTerm (c : Char) : Bool :=
  c = '\n' ∨ c = '\r' ∨ c = Char.ofNat 0x2028 ∨ c = Char.ofNat 0x2029

/-- ASCII lowercasing, sufficient for the `i` flag on the ASCII
patterns of the source. -/
def lowerChar (c : Char) : Char :=
  if 'A' ≤ c ∧ c ≤ 'Z' then Char.ofNat (c.toNat + 32) else c

/-- Case-insensitive character comparison (the `i` flag). -/
def ciEq (a b : Char) : Bool :=
  lowerChar a = lowerChar b

/-- Hexadecimal digit, the class `[0-9a-f]` under the `i` flag. -/
def isHexDigit (c : Char) : Bool :=
  isDigit c ∨ ('a' ≤ c ∧ c ≤ 'f') ∨ ('A' ≤ c ∧ c ≤ 'F')

/-! ## Basic string operations of the JavaScript runtime -/

/-- The `String.prototype.trim` of JavaScript. -/
def jsTrim (s : Chars) : Chars :=
  ((s.dropWhile jsWhitespace).reverse.dropWhile jsWhitespace).reverse

/-- Splitting on the newline character, as `rawText.split('\n')`. -/
def splitLinesGo (cur : Chars) : Chars → List Chars
  | [] => [cur.reverse]
  | c :: cs => if c = '\n' then cur.reverse :: splitLinesGo [] cs else splitLinesGo (c :: cur) cs

/-- All physical lines of the input, `rawText.split('\n')`. -/
def splitLines (s : Chars) : List Chars :=
  splitLinesGo [] s

/-- Whether the raw line contains a form feed, `line.indexOf('\f') >= 0`. -/
def containsFF (line : Chars) : Bool :=
  line.any (· = '\x0c')

/-- Maximal runs of non-whitespace characters, accumulator form. -/
def wordsGo (cur : Chars) : Chars → List Chars
  | [] => if cur.isEmpty then [] else [cur.reverse]
  | c :: cs =>
    if jsWhitespace c then
      if cur.isEmpty then wordsGo [] cs else cur.reverse :: wordsGo [] cs
    else wordsGo (c :: cur) cs

/-- Whitespace normalization of the whole document,
`rawText.replace(/\s+/g, ' ').trim()`: every maximal whitespace run
becomes one space and outer whitespace is removed, which is the same
as joining the non-whitespace runs with single spaces. -/
def normalizeWs (s : Chars) : Chars :=
  List.intercalate [' '] (wordsGo [] s)

/-- Case-sensitive substring-prefix test. -/
def litAt : Chars → Chars → Bool
  | [], _ => true
  | _ :: _, [] => false
  | l :: ls, c :: cs => l = c ∧ litAt ls cs

/-- Case-insensitive substring-prefix test. -/
def litAtCI : Chars → Chars → Bool
  | [], _ => true
  | _ :: _, [] => false
  | l :: ls, c :: cs => ciEq l c ∧ litAtCI ls cs

/-- Whether `pat` occurs anywhere in `s` (case-sensitive search). -/
def containsLit (pat : Chars) : Chars → Bool
  | [] => litAt pat []
  | c :: cs => litAt pat (c :: cs) ∨ containsLit pat cs

/-- Whether `pat` occurs anywhere in `s` (case-insensitive search). -/
def containsLitCI (pat : Chars) : Chars → Bool
  | [] => litAtCI pat []
  | c :: cs => litAtCI pat (c :: cs) ∨ containsLitCI pat cs

/-! ## Backtracking matcher combinators

A matcher of type `Chars → Option Chars` consumes a prefix of its
input and returns the unconsumed rest, or fails.  Ordered alternation
via `<|>` and the longest-first combinators below reproduce the
backtracking order of the JavaScript engine (greedy quantifiers,
alternatives tried left to right). -/

/-- Literal piece of a pattern, case-sensitive. -/
def pLit (lit : Chars) (k : Chars → Option Chars) (s : Chars) : Option Chars :=
  match lit, s with
  | [], rest => k rest
  | _ :: _, [] => none
  | l :: ls, c :: cs => if l = c then pLit ls k cs else none

/-- Literal piece of a pattern under the `i` flag. -/
def pLitCI (lit : Chars) (k : Chars → Option Chars) (s : Chars) : Option Chars :=
  match lit, s with
  | [], rest => k rest
  | _ :: _, [] => none
  | l :: ls, c :: cs => if ciEq l c then pLitCI ls k cs else none

/-- Greedy `X*` over a character class: longest repetition first. -/
def pStar (cls : Char → Bool) (k : Chars → Option Chars) : Chars → Option Chars
  | [] => k []
  | c :: cs =>
    (if cls c then pStar cls k cs else none) <|> k (c :: cs)

/-- Greedy `X+` over a character class. -/
def pPlus (cls : Char → Bool) (k : Chars → Option Chars) : Chars → Option Chars
  | [] => none
  | c :: cs => if cls c then pStar cls k cs else none

/-- A single character of a class, `X` or `X?` building block. -/
def pOne (cls : Char → Bool) (k : Chars → Option Chars) : Chars → Option Chars
  | [] => none
  | c :: cs => if cls c then k cs else none

/-- Greedy optional piece `P?`: with the piece first, then without. -/
def pOpt (piece : (Chars → Option Chars) → Chars → Option Chars)
    (k : Chars → Option Chars) (s : Chars) : Option Chars :=
  piece k s <|> k s

/-- End-of-input anchor `$`. -/
def pEnd : Chars → Option Chars
  | [] => some []
  | _ :: _ => none

/-- Acceptance of the remaining input (an unanchored pattern end). -/
def pAny : Chars → Option Chars := fun s => some s

/-- Exactly `n` repetitions of a class character. -/
def pRep (cls : Char → Bool) (n : Nat) (k : Chars → Option Chars) (s : Chars) : Option Chars :=
  match n with
  | 0 => k s
  | n + 1 => pOne cls (pRep cls n k) s

/-- Greedy `P{n,}` for a repeated sub-pattern with at least `n`
occurrences; `fuel` bounds the recursion (every repetition of the
patterns used here consumes at least one character, so a fuel of
`s.length + 1` is exact). -/
def pRepAtLeast (fuel : Nat)
    (piece : (Chars → Option Chars) → Chars → Option Chars) (n : Nat)
    (k : Chars → Option Chars) (s : Chars) : Option Chars :=
  match fuel with
  | 0 => none
  | fuel + 1 =>
    match n with
    | 0 => piece (fun rest => pRepAtLeast fuel piece 0 k rest) s <|> k s
    | n + 1 => piece (pRepAtLeast fuel piece n k) s

/-- Search of an unanchored pattern from character index `start`
(the `lastIndex` of a `g`-flagged regex): earliest match wins; the
result is the pair (match index, match end index). -/
def searchGo (m : Chars → Option Chars) (p : Nat) : Chars → Option (Nat × Nat)
  | [] => match m [] with
    | some _ => some (p, p)
    | none => none
  | c :: cs =>
    match m (c :: cs) with
    | some rest => some (p, p + ((c :: cs).length - rest.length))
    | none => searchGo m (p + 1) cs

/-- The `exec` of an unanchored regex starting at `lastIndex = start`. -/
def searchFrom (m : Chars → Option Chars) (start : Nat) (s : Chars) : Option (Nat × Nat) :=
  if start ≤ s.length then searchGo m start (s.drop start) else none

/-- The `test` of a stateless regex (no `g` flag): search from 0. -/
def plainTest (m : Chars → Option Chars) (s : Chars) : Bool :=
  (searchFrom m 0 s).isSome

/-- The `test` of a `g`-flagged regex with current `lastIndex`:
returns the outcome together with the updated `lastIndex`
(the match end on success, `0` on failure). -/
def gTest (m : Chars → Option Chars) (lastIndex : Nat) (s : Chars) : Bool × Nat :=
  match searchFrom m lastIndex s with
  | some (_, e) => (true, e)
  | none => (false, 0)

end Idnits

namespace Idnits

/-! ## Line-oriented regexes of `src/lib/parsers/txt.mjs` -/

/-- One validity check of `LINE_VALUES_EXTRACT_RE` at left length `i`:
the separator `\s{2,}` must start at `i` and both `(?<left>.*)` and
`(?<right>.*)` exclude line terminators; the separator is greedy, so
it swallows the whole whitespace run. -/
def lveCheck (s : Chars) (i : Nat) : Option (Chars × Chars) :=
  let left := s.take i
  let rest := s.drop i
  match rest with
  | a :: b :: _ =>
    if jsWhitespace a ∧ jsWhitespace b ∧ left.all (fun c => ¬ isLineTerm c) then
      let right := rest.dropWhile jsWhitespace
      if right.all (fun c => ¬ isLineTerm c) then some (left, right) else none
    else none
  | _ => none

/-- Backtracking of the greedy `(?<left>.*)`: longest left first. -/
def lveTry (s : Chars) : Nat → Option (Chars × Chars)
  | 0 => lveCheck s 0
  | i + 1 => lveCheck s (i + 1) <|> lveTry s i

/-- The regex `^(?<left>.*)\s{2,}(?<right>.*)$`: split a line on the
last two-or-more-space column boundary (greedy left). -/
def LINE_VALUES_EXTRACT_RE (s : Chars) : Option (Chars × Chars) :=
  if 2 ≤ s.length then lveTry s (s.length - 2) else none

/-- The regex `^[a-z]\.\s[a-z]+$` with flag `i`: an
initial-dot-surname author name; a successful `exec` has the whole
line as `match[0]`. -/
def AUTHOR_NAME_RE (s : Chars) : Bool :=
  match s with
  | c :: '.' :: w :: rest =>
    isAsciiLetter c ∧ jsWhitespace w ∧ ¬ rest.isEmpty ∧ rest.all isAsciiLetter
  | _ => false

/-- Month-then-year tail of `DATE_RE`: `[a-z]{3,}\s[0-9]{4}$`. -/
def dateMonthYear (t : Chars) : Option (Chars × Chars) :=
  let m := t.takeWhile isAsciiLetter
  let rest := t.dropWhile isAsciiLetter
  if 3 ≤ m.length then
    match rest with
    | w :: r => if jsWhitespace w ∧ r.length = 4 ∧ r.all isDigit then some (m, r) else none
    | [] => none
  else none

/-- The regex `^(?:(?<day>[0-9]{1,2})\s)?(?<month>[a-z]{3,})\s(?<year>[0-9]{4})$`
with flag `i`; returns the `(day?, month, year)` groups.  The optional
day group is greedy (two digits preferred over one, present preferred
over absent). -/
def DATE_RE (s : Chars) : Option (Option Chars × Chars × Chars) :=
  (match s with
   | d1 :: d2 :: w :: rest =>
     if isDigit d1 ∧ isDigit d2 ∧ jsWhitespace w then
       (dateMonthYear rest).map (fun (m, y) => (some [d1, d2], m, y))
     else none
   | _ => none) <|>
  (match s with
   | d1 :: w :: rest =>
     if isDigit d1 ∧ jsWhitespace w then
       (dateMonthYear rest).map (fun (m, y) => (some [d1], m, y))
     else none
   | _ => none) <|>
  (dateMonthYear s).map (fun (m, y) => (none, m, y))

/-- The regex `^\d+\.\s+.+$` (generic numbered section header). -/
def SECTION_PATTERN (s : Chars) : Bool :=
  (pPlus isDigit (pLit ['.']
    (pPlus jsWhitespace (pPlus (fun c => ¬ isLineTerm c) pEnd))) s).isSome

/-- Full-line match of `^\d+\.\d+\.\s+(.+)$` (the body of
`SUBSECTION_PATTERN`; its `g`-flag statefulness is handled at the use
site). -/
def subsectionFullMatch (s : Chars) : Bool :=
  (pPlus isDigit (pLit ['.'] (pPlus isDigit (pLit ['.']
    (pPlus jsWhitespace (pPlus (fun c => ¬ isLineTerm c) pEnd))))) s).isSome

/-- The regex `/^\d+\.\d+\.\s+(.+)$/ig` as the source uses it:
`SUBSECTION_PATTERN.test(trimmedLine)` on a module-level `g` regex.
Because the pattern is anchored at `^` without the `m` flag, a search
from a nonzero `lastIndex` can never match, so the test succeeds only
with a cursor of `0`; on success the cursor moves to the end of the
line, on failure it resets to `0`. -/
def SUBSECTION_PATTERN_test (lastIndex : Nat) (s : Chars) : Bool × Nat :=
  if lastIndex = 0 ∧ subsectionFullMatch s then (true, s.length) else (false, 0)

/-- The regex `\.+\s*\d+$` (`TOC_PATTERN`), tested without `g`: the
line ends in at least one period, optional whitespace and a page
number, which is exactly a digits-whitespace-period shape of the
reversed line. -/
def TOC_PATTERN (s : Chars) : Bool :=
  (pPlus isDigit (pStar jsWhitespace (pOne (· = '.') pAny)) s.reverse).isSome

/-- Quote characters accepted between the author word and `s` in the
author-section regexes: `[‘’‛'`"]`. -/
def isAuthorQuote (c : Char) : Bool :=
  c = Char.ofNat 0x2018 ∨ c = Char.ofNat 0x2019 ∨ c = Char.ofNat 0x201b ∨
  c = '\'' ∨ c = Char.ofNat 0x60 ∨ c = '"'

/-- Class `[0-9a-z.]` under flag `i`. -/
def isAuthorLead (c : Char) : Bool :=
  isDigit c ∨ isAsciiLetter c ∨ c = '.'

/-- Alternation `(author|editor)` under flag `i`. -/
def pAuthorOrEditor (k : Chars → Option Chars) (s : Chars) : Option Chars :=
  pLitCI "author".toList k s <|> pLitCI "editor".toList k s

/-- The regex `^(Authors?|Editors?)[‘’‛'`"] Addresses$` with flag `i`. -/
def AUTHORS_OR_EDITORS_ADDRESSES_RE (s : Chars) : Bool :=
  (pAuthorOrEditor (pOpt (pLitCI ['s'])
    (pOne isAuthorQuote (pLitCI " addresses".toList pEnd))) s).isSome

/-- The regex `^[0-9a-z.]*\s*author information$` with flag `i`. -/
def AUTHOR_INFORMATION_RE (s : Chars) : Bool :=
  (pStar isAuthorLead (pStar jsWhitespace
    (pLitCI "author information".toList pEnd)) s).isSome

/-- The regex `^[0-9a-z.]*\s*(author|editor)(?:[‘’‛'`"]s?|s)?\s+contact information$` with flag `i`. -/
def AUTHOR_CONTACT_INFORMATION_RE (s : Chars) : Bool :=
  (pStar isAuthorLead (pStar jsWhitespace
    (pAuthorOrEditor (pOpt
      (fun k t => pOne isAuthorQuote (pOpt (pLitCI ['s']) k) t <|> pLitCI ['s'] k t)
      (pPlus jsWhitespace (pLitCI "contact information".toList pEnd))))) s).isSome

/-- The regex `^[0-9a-z.]*\s*contact information$` with flag `i`. -/
def CONTACT_INFORMATION_RE (s : Chars) : Bool :=
  (pStar isAuthorLead (pStar jsWhitespace
    (pLitCI "contact information".toList pEnd)) s).isSome

/-- The regex `^[0-9a-z.]*\s*(author|editor)s?:?$` with flag `i`. -/
def AUTHOR_EDITORS_RE (s : Chars) : Bool :=
  (pStar isAuthorLead (pStar jsWhitespace
    (pAuthorOrEditor (pOpt (pLitCI ['s']) (pOpt (pLit [':']) pEnd)))) s).isSome

/-- `AUTHOR_SECTION_RE`: the five author-section alternatives, each
carrying its own `^`/`$` anchors, so the unanchored combined test is a
full-line match of one of them. -/
def AUTHOR_SECTION_RE (s : Chars) : Bool :=
  AUTHORS_OR_EDITORS_ADDRESSES_RE s ∨ AUTHOR_INFORMATION_RE s ∨
  AUTHOR_CONTACT_INFORMATION_RE s ∨ CONTACT_INFORMATION_RE s ∨ AUTHOR_EDITORS_RE s

/-- Matcher `^\d+\.\s+(TITLE1|TITLE2|…)$` with flag `i`, the shape of
the entries of `sectionMatchers`; `titles` are given lowercased. -/
def numberedTitleRe (titles : List Chars) (s : Chars) : Bool :=
  (pPlus isDigit (pLit ['.'] (pPlus jsWhitespace
    (fun rest => if titles.any (fun t => rest.map lowerChar = t) then some [] else none))) s).isSome

/-- Tracked sections, in the order of the source `sectionMatchers` table. -/
inductive SectionKey where
  | abstract
  | introduction
  | securityConsiderations
  | authorAddress
  | references
  | ianaConsiderations
deriving DecidableEq, Repr

/-- The ordered `sectionMatchers` table: name and recognizer pairs
(`abstract` is special-cased in the scan, not part of the table). -/
def sectionMatchers : List (SectionKey × (Chars → Bool)) :=
  [(.introduction, numberedTitleRe ["introduction".toList, "overview".toList, "background".toList]),
   (.securityConsiderations, numberedTitleRe ["security considerations".toList]),
   (.authorAddress, AUTHOR_SECTION_RE),
   (.references, numberedTitleRe ["references".toList]),
   (.ianaConsiderations, numberedTitleRe ["iana considerations".toList])]

/-- The `sectionMatchers.find(({regex}) => regex.test(trimmedLine))`
lookup: first matching entry wins. -/
def findSectionMatch (s : Chars) : Option SectionKey :=
  (sectionMatchers.find? (fun m => m.2 s)).map (·.1)

/-- Reference sub-section tags of `subsectionMatchers`. -/
inductive SubKey where
  | normative_references
  | informative_references
deriving DecidableEq, Repr

/-- Matcher `^\d+\.\d+\.\s+W1\s+W2$` with flag `i`, the shape of both
`subsectionMatchers` regexes. -/
def subsectionTitleRe (w1 w2 : Chars) (s : Chars) : Bool :=
  (pPlus isDigit (pLit ['.'] (pPlus isDigit (pLit ['.']
    (pPlus jsWhitespace (pLitCI w1
      (pPlus jsWhitespace (pLitCI w2 pEnd))))))) s).isSome

/-- The ordered `subsectionMatchers` table. -/
def subsectionMatchers : List (SubKey × (Chars → Bool)) :=
  [(.normative_references, subsectionTitleRe "normative".toList "references".toList),
   (.informative_references, subsectionTitleRe "informative".toList "references".toList)]

/-- First matching sub-section recognizer. -/
def findSubsectionMatch (s : Chars) : Option SubKey :=
  (subsectionMatchers.find? (fun m => m.2 s)).map (·.1)

end Idnits

namespace Idnits

/-! ## Global match collection (the `matchAll` / looped `exec` of the source) -/

/-- Repetition of exactly `n` copies of a sub-pattern. -/
def pRepP (piece : (Chars → Option Chars) → Chars → Option Chars) :
    Nat → (Chars → Option Chars) → Chars → Option Chars
  | 0, k, s => k s
  | n + 1, k, s => piece (pRepP piece n k) s

/-- All matches of an attempt matcher, left to right and
non-overlapping, each as (start index, matched text); this is
`String.prototype.matchAll` on a `g` regex whose `lastIndex` is `0`
(matches of the patterns used here are never empty).  The fuel only
serves structural recursion: one unit is spent per scanned position,
so `s.length + 1` units are exact. -/
def matchAllGo (attempt : Chars → Option Chars) : Nat → Nat → Chars → List (Nat × Chars)
  | 0, _, _ => []
  | _ + 1, _, [] => []
  | fuel + 1, p, c :: cs =>
    match attempt (c :: cs) with
    | some rest =>
      let len := (c :: cs).length - rest.length
      if 0 < len ∧ rest.length < (c :: cs).length then
        (p, (c :: cs).take len) :: matchAllGo attempt fuel (p + len) rest
      else matchAllGo attempt fuel (p + 1) cs
    | none => matchAllGo attempt fuel (p + 1) cs

/-- All matches starting from index 0. -/
def matchAllStr (attempt : Chars → Option Chars) (s : Chars) : List (Nat × Chars) :=
  matchAllGo attempt (s.length + 1) 0 s

/-! ## RFC 2119 keyword and invalid-combination matchers -/

/-- Core alternation of `KEYWORDS_PATTERN`, in source order:
`(MUST|REQUIRED|SHALL|SHOULD|RECOMMENDED|OPTIONAL|MAY)`. -/
def keywordsCore : List Chars :=
  ["MUST".toList, "REQUIRED".toList, "SHALL".toList, "SHOULD".toList,
   "RECOMMENDED".toList, "OPTIONAL".toList, "MAY".toList]

/-- Ordered case-sensitive literal alternation. -/
def pAltsLit (alts : List Chars) (k : Chars → Option Chars) (s : Chars) : Option Chars :=
  match alts with
  | [] => none
  | a :: rest => pLit a k s <|> pAltsLit rest k s

/-- One attempt of `KEYWORDS_PATTERN`
`((NOT)\s)?(MUST|REQUIRED|SHALL|SHOULD|RECOMMENDED|OPTIONAL|MAY)(\s(NOT))?`
at the current position (greedy optional `NOT` on both sides). -/
def keywordAttempt : Chars → Option Chars :=
  pOpt (fun k => pLit "NOT".toList (pOne jsWhitespace k))
    (pAltsLit keywordsCore
      (pOpt (fun k => pOne jsWhitespace (pLit "NOT".toList k)) pAny))

/-- The `matchAll(KEYWORDS_PATTERN)` matched strings of a line. -/
def KEYWORDS_PATTERN_matches (s : Chars) : List (Nat × Chars) :=
  matchAllStr keywordAttempt s

/-- The alternatives of `INVALID_COMBINATIONS_PATTERN`, in source
order (case-sensitive). -/
def invalidCombinations : List Chars :=
  ["MUST not".toList, "SHALL not".toList, "SHOULD not".toList,
   "not RECOMMENDED".toList, "MAY NOT".toList, "NOT REQUIRED".toList,
   "NOT OPTIONAL".toList]

/-- The `matchAll(INVALID_COMBINATIONS_PATTERN)` matches of a line. -/
def INVALID_COMBINATIONS_PATTERN_matches (s : Chars) : List (Nat × Chars) :=
  matchAllStr (pAltsLit invalidCombinations pAny) s

/-! ## Citation matchers -/

/-- First alternative of `RFC_REFERENCE_RE`, `\bRFC\s?(\d+)\b`, tried
at the current position with the wordness of the previous character
(for the leading `\b`); returns the captured digits, the rest, and the
wordness of the last matched character. -/
def rfcRefAlt1 (prevWord : Bool) (s : Chars) : Option (Chars × Chars × Bool) :=
  if ¬ prevWord ∧ litAtCI "RFC".toList s then
    let t := s.drop 3
    let u := match t with
      | w :: r => if jsWhitespace w ∧ (r.headD ' ').isDigit then r else t
      | [] => t
    let ds := u.takeWhile isDigit
    let rest := u.drop ds.length
    if ¬ ds.isEmpty ∧ ¬ isWordChar (rest.headD ' ') then some (ds, rest, true) else none
  else none

/-- Second alternative of `RFC_REFERENCE_RE`, `\[RFC(\d+)\]`. -/
def rfcRefAlt2 (s : Chars) : Option (Chars × Chars × Bool) :=
  match s with
  | '[' :: t =>
    if litAtCI "RFC".toList t then
      let u := t.drop 3
      let ds := u.takeWhile isDigit
      match u.drop ds.length with
      | ']' :: rest => if ds.isEmpty then none else some (ds, rest, false)
      | _ => none
    else none
  | _ => none

/-- One attempt of `RFC_REFERENCE_RE` (`gi`): first alternative, then
the bracketed one. -/
def rfcRefAttempt (prevWord : Bool) (s : Chars) : Option (Chars × Chars × Bool) :=
  rfcRefAlt1 prevWord s <|> rfcRefAlt2 s

/-- The looped `RFC_REFERENCE_RE.exec(trimmedLine)`, collecting the
captured RFC numbers (`rfcMatch[1] || rfcMatch[2]`) in match order. -/
def rfcRefGo : Nat → Bool → Chars → List Chars
  | 0, _, _ => []
  | _ + 1, _, [] => []
  | fuel + 1, prevWord, c :: cs =>
    match rfcRefAttempt prevWord (c :: cs) with
    | some (num, rest, w) =>
      if rest.length < cs.length + 1 then num :: rfcRefGo fuel w rest
      else rfcRefGo fuel (isWordChar c) cs
    | none => rfcRefGo fuel (isWordChar c) cs

/-- All RFC numbers cited on a line, per `RFC_REFERENCE_RE`. -/
def RFC_REFERENCE_RE_numbers (s : Chars) : List Chars :=
  rfcRefGo (s.length + 1) false s

/-- Character class `[a-zA-Z0-9-.]` of `NON_RFC_REFERENCE_RE`. -/
def isDraftRefChar (c : Char) : Bool :=
  isAsciiLetter c ∨ isDigit c ∨ c = '-' ∨ c = '.'

/-- One attempt of `NON_RFC_REFERENCE_RE`,
`\[(?!RFC\d+)[a-zA-Z0-9-.]+\]` (`gi`): a bracketed token whose body
does not begin with `RFC` followed by a digit (the negative
lookahead, case-insensitive). -/
def draftRefAttempt (s : Chars) : Option Chars :=
  match s with
  | '[' :: t =>
    if litAtCI "RFC".toList t ∧ ((t.drop 3).headD ' ').isDigit then none
    else
      let body := t.takeWhile isDraftRefChar
      match t.drop body.length with
      | ']' :: rest => if body.isEmpty then none else some rest
      | _ => none
  | _ => none

/-- All bracketed non-RFC citation tokens of a line (each `match[0]`,
brackets included). -/
def NON_RFC_REFERENCE_RE_matches (s : Chars) : List Chars :=
  (matchAllStr draftRefAttempt s).map (·.2)

/-! ## FQDN and IP extractors (`src/lib/modules/fqdn.mjs`, `ip.mjs`) -/

/-- Label class `[a-z0-9-]` (flag `i`) of `FQDN_RE`. -/
def isFqdnLabelChar (c : Char) : Bool :=
  isAsciiLetter c ∨ isDigit c ∨ c = '-'

/-- Alphanumeric class `[a-z0-9]` (flag `i`). -/
def isAlnum (c : Char) : Bool :=
  isAsciiLetter c ∨ isDigit c

/-- Trailing-boundary class `[a-z0-9-_]` (flag `i`) of the negative
lookahead of `FQDN_RE`. -/
def isFqdnBoundChar (c : Char) : Bool :=
  isAsciiLetter c ∨ isDigit c ∨ c = '-' ∨ c = '_'

/-- Final label `(?:[a-z0-9]{2,})` of `FQDN_RE` followed by `\.?` and
the negative lookahead `(?![a-z0-9-_]+)`; returns (domain length,
whole-match length) measured from `t`.  The greedy `{2,}` takes the
maximal alphanumeric run; a shorter run would be followed by an
alphanumeric character and fail the lookahead. -/
def fqdnFinalAt (t : Chars) : Option (Nat × Nat) :=
  let run := t.takeWhile isAlnum
  if 2 ≤ run.length then
    match t.drop run.length with
    | [] => some (run.length, run.length)
    | '.' :: r2 =>
      if isFqdnBoundChar (r2.headD ' ') ∧ ¬ r2.isEmpty then
        some (run.length, run.length)
      else some (run.length, run.length + 1)
    | c :: _ => if isFqdnBoundChar c then none else some (run.length, run.length)
  else none

/-- The repeated `(?:[a-z0-9-]+\.)+` of `FQDN_RE` followed by the
final label: greedy, preferring more repetitions. -/
def fqdnSeq : Nat → Chars → Option (Nat × Nat)
  | 0, _ => none
  | fuel + 1, s =>
    let l := s.takeWhile isFqdnLabelChar
    if ¬ l.isEmpty ∧ (s.drop l.length).headD ' ' = '.' ∧ l.length < s.length then
      let rest := s.drop (l.length + 1)
      match (fqdnSeq fuel rest).orElse (fun _ => fqdnFinalAt rest) with
      | some (d, m) => some (l.length + 1 + d, l.length + 1 + m)
      | none => none
    else none

/-- Position scan collecting the captured `domain` groups of all
`FQDN_RE` matches of a line. -/
def fqdnDomainsGo : Nat → Chars → List Chars
  | 0, _ => []
  | _ + 1, [] => []
  | fuel + 1, c :: cs =>
    match fqdnSeq ((c :: cs).length + 1) (c :: cs) with
    | some (d, m) =>
      if 0 < m ∧ (c :: cs).length - m < cs.length + 1 then
        (c :: cs).take d :: fqdnDomainsGo fuel ((c :: cs).drop m)
      else fqdnDomainsGo fuel cs
    | none => fqdnDomainsGo fuel cs

/-- The captured `domain` groups of all `FQDN_RE` matches on a line. -/
def FQDN_RE_domains (s : Chars) : List Chars :=
  fqdnDomainsGo (s.length + 1) s

/-- `IPV4_LOOSE_RE`, `[0-9]+\.[0-9]+\.[0-9]+\.[0-9]+(\/[0-9]+)?` (`g`). -/
def ipv4LooseAttempt : Chars → Option Chars :=
  pPlus isDigit (pLit ['.'] (pPlus isDigit (pLit ['.'] (pPlus isDigit (pLit ['.']
    (pPlus isDigit (pOpt (fun k t => pLit ['/'] (pPlus isDigit k) t) pAny)))))))

/-- All `IPV4_LOOSE_RE` matched strings of a line. -/
def IPV4_LOOSE_RE_matches (s : Chars) : List Chars :=
  (matchAllStr ipv4LooseAttempt s).map (·.2)

/-- The `full` alternative of `IPV6_LOOSE_RE`: `[0-9a-f]+(:[0-9a-f]*){7}`. -/
def ipv6Full (k : Chars → Option Chars) : Chars → Option Chars :=
  pPlus isHexDigit (pRepP (fun k2 => pLit [':'] (pStar isHexDigit k2)) 7 k)

/-- The `compressed` alternative: `([0-9a-f]+:)+((:[0-9a-f]+)+|:)`. -/
def ipv6Compressed (fuel : Nat) (k : Chars → Option Chars) : Chars → Option Chars :=
  pRepAtLeast fuel (fun k2 => pPlus isHexDigit (pLit [':'] k2)) 1
    (fun rest =>
      pRepAtLeast fuel (fun k2 => pLit [':'] (pPlus isHexDigit k2)) 1 k rest <|>
      pLit [':'] k rest)

/-- The `mixv4` alternative: `[0-9a-f]+(:[0-9a-f]*){5}:([0-9]+\.){3}[0-9]+`. -/
def ipv6MixV4 (k : Chars → Option Chars) : Chars → Option Chars :=
  pPlus isHexDigit (pRepP (fun k2 => pLit [':'] (pStar isHexDigit k2)) 5
    (pLit [':'] (pRepP (fun k2 => pPlus isDigit (pLit ['.'] k2)) 3 (pPlus isDigit k))))

/-- The `compressedv4` alternative: `::([0-9a-f]+:)*([0-9]+\.){3}[0-9]+`. -/
def ipv6CompressedV4 (fuel : Nat) (k : Chars → Option Chars) : Chars → Option Chars :=
  pLit "::".toList (pRepAtLeast fuel (fun k2 => pPlus isHexDigit (pLit [':'] k2)) 0
    (pRepP (fun k2 => pPlus isDigit (pLit ['.'] k2)) 3 (pPlus isDigit k)))

/-- The `loopback` alternative: `::[0-9]+`. -/
def ipv6Loopback (k : Chars → Option Chars) : Chars → Option Chars :=
  pLit "::".toList (pPlus isDigit k)

/-- One attempt of `IPV6_LOOSE_RE` (`gi`): the five named alternatives
in source order, then the optional `(?<cidr>\/[0-9]+)?`. -/
def ipv6LooseAttempt (s : Chars) : Option Chars :=
  let tail := pOpt (fun k t => pLit ['/'] (pPlus isDigit k) t) pAny
  let fuel := s.length + 1
  (ipv6Full tail s) <|> (ipv6Compressed fuel tail s) <|> (ipv6MixV4 tail s) <|>
  (ipv6CompressedV4 fuel tail s) <|> (ipv6Loopback tail s)

/-- All `IPV6_LOOSE_RE` matched strings of a line. -/
def IPV6_LOOSE_RE_matches (s : Chars) : List Chars :=
  (matchAllStr ipv6LooseAttempt s).map (·.2)

end Idnits

namespace Idnits

/-! ## Inline code comment matcher (`INLINE_CODE_FORMAT`) -/

/-- The anchored third alternative `^ *#`: literal spaces then a hash;
it matches iff the first non-space character is `#`, with match index
0 and end one past the hash. -/
def inlineHashLen (s : Chars) : Option Nat :=
  if (s.dropWhile (· = ' ')).headD ' ' = '#' then
    some ((s.takeWhile (· = ' ')).length + 1)
  else none

/-- Position scan of `INLINE_CODE_FORMAT.exec`: at each position the
alternatives `\/\*`, `\*\/`, `^ *#` are tried in order; the `^`
alternative can fire only at position 0. -/
def inlineSearchGo (p : Nat) : Chars → Option (Nat × Nat)
  | [] => none
  | c :: cs =>
    if litAt "/*".toList (c :: cs) ∨ litAt "*/".toList (c :: cs) then some (p, p + 2)
    else
      match (if p = 0 then inlineHashLen (c :: cs) else none) with
      | some len => some (0, len)
      | none => inlineSearchGo (p + 1) cs

/-- The `INLINE_CODE_FORMAT.exec(line)` of a `/\/\*|\*\/|^ *#/ig`
module-level regex with the given `lastIndex`: result is (match
index, match end). -/
def INLINE_CODE_FORMAT_exec (lastIndex : Nat) (line : Chars) : Option (Nat × Nat) :=
  if lastIndex ≤ line.length then inlineSearchGo lastIndex (line.drop lastIndex) else none

/-! ## Obsoletes / Updates extraction on the normalized text -/

/-- One repetition body `(?:rfc\s*)?[0-9]+(?:,|\s|and)*\s*` of
`OBSOLETES_RE` / `UPDATES_RE`. -/
def obsUpdBody (fuel : Nat) (k : Chars → Option Chars) : Chars → Option Chars :=
  pOpt (fun k2 => pLitCI "rfc".toList (pStar jsWhitespace k2))
    (pPlus isDigit
      (pRepAtLeast fuel
        (fun k2 t => (pLit [','] k2 t).orElse (fun _ => (pOne jsWhitespace k2 t).orElse
          (fun _ => pLit "and".toList k2 t))) 0
        (pStar jsWhitespace k)))

/-- One attempt of `OBSOLETES_RE`,
`(?:obsoletes|replaces)\s*:\s*((?:rfc\s*)?[0-9]+(?:,|\s|and)*\s*)+` (`gi`). -/
def obsoletesAttempt (s : Chars) : Option Chars :=
  (fun t => (pLitCI "obsoletes".toList pAny t).orElse (fun _ => pLitCI "replaces".toList pAny t))
    s |>.bind (fun t =>
      pStar jsWhitespace (pLit [':']
        (pStar jsWhitespace (pRepAtLeast (s.length + 1) (obsUpdBody (s.length + 1)) 1 pAny))) t)

/-- One attempt of `UPDATES_RE`,
`updates\s*:\s*((?:rfc\s*)?[0-9]+(?:,|\s|and)*\s*)+` (`gi`). -/
def updatesAttempt (s : Chars) : Option Chars :=
  pLitCI "updates".toList
    (pStar jsWhitespace (pLit [':']
      (pStar jsWhitespace (pRepAtLeast (s.length + 1) (obsUpdBody (s.length + 1)) 1 pAny)))) s

/-- One attempt of the inner number regex of `extractRfcNumbers`,
`\b(RFC\s*[0-9]+|[0-9]+)\b` (`gi`), given the wordness of the
previous character; returns (matched text, rest). -/
def numTokenAttempt (prevWord : Bool) (s : Chars) : Option (Chars × Chars) :=
  if prevWord then none
  else
    (if litAtCI "RFC".toList s then
      let t := s.drop 3
      let w := t.takeWhile jsWhitespace
      let u := t.drop w.length
      let ds := u.takeWhile isDigit
      let rest := u.drop ds.length
      if ¬ ds.isEmpty ∧ ¬ isWordChar (rest.headD ' ') then
        some (s.take (3 + w.length + ds.length), rest)
      else none
    else none) |>.orElse (fun _ =>
      let ds := s.takeWhile isDigit
      let rest := s.drop ds.length
      if ¬ ds.isEmpty ∧ ¬ isWordChar (rest.headD ' ') then some (ds, rest) else none)

/-- All matches of the inner number regex over one outer match. -/
def numTokensGo : Nat → Bool → Chars → List Chars
  | 0, _, _ => []
  | _ + 1, _, [] => []
  | fuel + 1, prevWord, c :: cs =>
    match numTokenAttempt prevWord (c :: cs) with
    | some (tok, rest) =>
      if rest.length < cs.length + 1 then tok :: numTokensGo fuel true rest
      else numTokensGo fuel (isWordChar c) cs
    | none => numTokensGo fuel (isWordChar c) cs

/-- The `match(/\b(RFC\s*[0-9]+|[0-9]+)\b/gi)` of one matched
obsoletes/updates value. -/
def numTokens (s : Chars) : List Chars :=
  numTokensGo (s.length + 1) false s

/-- The `num.replace(/^RFC\s*/i, '')` of `extractRfcNumbers` (applied
exactly to the tokens that match `^RFC\s*[0-9]+$`). -/
def stripRfcLead (num : Chars) : Chars :=
  if litAtCI "RFC".toList num then (num.drop 3).dropWhile jsWhitespace else num

/-- The `plainNumbers` result of `extractRfcNumbers(text, regex)`:
for every outer regex match, every number token with any `RFC` lead
removed, in match order. -/
def extractRfcNumbersPlain (attempt : Chars → Option Chars) (text : Chars) : List Chars :=
  ((matchAllStr attempt text).map (fun m => (numTokens m.2).map stripRfcLead)).flatten

/-! ## Boilerplate matchers -/

/-- Punctuation class `[.,;]`. -/
def isBpPunct (c : Char) : Bool :=
  c = '.' ∨ c = ',' ∨ c = ';'

/-- Shared keyword-list head of the two RFC 2119 boilerplate
patterns, through `"RECOMMENDED",` and including the optional
`("NOT RECOMMENDED", )?` (flags `ig`). -/
def bpHead (k : Chars → Option Chars) : Chars → Option Chars :=
  pLitCI ("The key words \"MUST\", \"MUST NOT\", \"REQUIRED\", \"SHALL\", " ++
      "\"SHALL NOT\", \"SHOULD\", \"SHOULD NOT\", \"RECOMMENDED\",").toList
    (pOpt (pLitCI [' '])
      (pOpt (pLitCI "\"NOT RECOMMENDED\", ".toList)
        (pLitCI "\"MAY\", and \"OPTIONAL\" in this document are to be interpreted as described in".toList k)))

/-- `BOILERPLATE_PATTERNS.rfc2119`:
the canonical sentence with optional `( BCP 14,)?` and terminated
`RFC ?2119[.,;]`. -/
def bpRfc2119 : Chars → Option Chars :=
  bpHead (pOpt (pLitCI " BCP 14,".toList)
    (pLitCI " RFC".toList (pOpt (pLitCI [' ']) (pLitCI "2119".toList (pOne isBpPunct pAny)))))

/-- `BOILERPLATE_PATTERNS.rfc2119_alt`: the alternate phrasing citing
the quoted title and `[RFC2119]`. -/
def bpRfc2119Alt : Chars → Option Chars :=
  bpHead (pLitCI " \"Key words for use in RFCs to Indicate Requirement Levels\" [RFC2119]".toList pAny)

/-- `BOILERPLATE_PATTERNS.rfc8174`: the combined BCP 14 sentence. -/
def bpRfc8174 : Chars → Option Chars :=
  pLitCI ("The key words \"MUST\", \"MUST NOT\", \"REQUIRED\", \"SHALL\", " ++
      "\"SHALL NOT\", \"SHOULD\", \"SHOULD NOT\", \"RECOMMENDED\", \"NOT RECOMMENDED\", " ++
      "\"MAY\", and \"OPTIONAL\" in this document are to be interpreted as described in " ++
      "BCP 14 [RFC2119] [RFC8174]").toList pAny

/-- The first matched string of a pattern on a text
(`text.match(pattern)[0]`, which on a `g` regex always searches from
index 0 and leaves `lastIndex` at 0). -/
def firstMatchStr (m : Chars → Option Chars) (s : Chars) : Option Chars :=
  (searchFrom m 0 s).map (fun pe => (s.drop pe.1).take (pe.2 - pe.1))

/-- A boilerplate fragment test: cursor and text to outcome and new
cursor (global fragments move their `lastIndex`, the one non-global
fragment leaves it alone). -/
abbrev BpFrag := Nat → Chars → Bool × Nat

/-- Fragment of a `g`-flagged part regex. -/
def gFrag (m : Chars → Option Chars) : BpFrag :=
  fun li s => gTest m li s

/-- Fragment of a non-global part regex. -/
def plainFrag (m : Chars → Option Chars) : BpFrag :=
  fun li s => (plainTest m s, li)

/-- Parts 1 to 4 of every `BOILERPLATE_PARTS` group (case-sensitive,
flag `g`); each group owns distinct regex objects with these same
sources, hence distinct cursors. -/
def bpPartsCommon : List BpFrag :=
  [gFrag (pLit "The key words ".toList pAny),
   gFrag (pLit "\"MUST\", \"MUST NOT\", \"REQUIRED\", \"SHALL\"".toList pAny),
   gFrag (pLit "\"SHALL NOT\", \"SHOULD\", \"SHOULD NOT\", \"RECOMMENDED\"".toList pAny),
   gFrag (pLit "\"NOT RECOMMENDED\", \"MAY\", and \"OPTIONAL\"".toList pAny)]

/-- `BOILERPLATE_PARTS.rfc2119`: the common parts, the
`described in` part and the non-global `RFC ?2119[.,;]?` tail. -/
def BOILERPLATE_PARTS_rfc2119 : List BpFrag :=
  bpPartsCommon ++
  [gFrag (pLit "in this document are to be interpreted as described in".toList pAny),
   plainFrag (pLitCI "RFC".toList (pOpt (pLitCI [' '])
     (pLitCI "2119".toList (pOpt (pOne isBpPunct) pAny))))]

/-- `BOILERPLATE_PARTS.rfc2119_alt`. -/
def BOILERPLATE_PARTS_rfc2119_alt : List BpFrag :=
  bpPartsCommon ++
  [gFrag (pLit "in this document are to be interpreted as described in".toList pAny),
   gFrag (pLitCI "\"Key words for use in RFCs to Indicate Requirement Levels\" [RFC2119]".toList pAny)]

/-- `BOILERPLATE_PARTS.rfc8174`. -/
def BOILERPLATE_PARTS_rfc8174 : List BpFrag :=
  bpPartsCommon ++
  [gFrag (pLit "in this document are to be interpreted as described in BCP 14".toList pAny),
   gFrag (pLitCI "[RFC2119] [RFC8174]".toList pAny)]

/-- One group pass of `hasBoilerplateMatch`: test the parts in order
against their cursors, stopping at the first failure (`break`);
returns the `matchCount` and the updated cursors of this group. -/
def hbmGroup (text : Chars) : List BpFrag → List Nat → Nat × List Nat
  | [], cs => (0, cs)
  | f :: fs, cs =>
    let (b, c') := f (cs.headD 0) text
    if b then
      let (n, rest') := hbmGroup text fs cs.tail
      (n + 1, c' :: rest')
    else (0, c' :: cs.tail)

/-- `hasBoilerplateMatch(text, ...regexGroups)`: the source returns
`true` as soon as a group has a positive `matchCount`, leaving the
later groups untested. -/
def hasBoilerplateMatch (text : Chars) :
    List (List BpFrag) → List (List Nat) → Bool × List (List Nat)
  | [], states => (false, states)
  | g :: gs, states =>
    let (n, st') := hbmGroup text g (states.headD [])
    if 0 < n then (true, st' :: states.tail)
    else
      let (b, sts') := hasBoilerplateMatch text gs states.tail
      (b, st' :: sts')

/-! ## Status names (`src/lib/config/rfc-status-hierarchy.mjs`) -/

/-- The ordered `rfcStatusHierarchy` table as (name, ordered literal
alternatives of the `ig` regex). -/
def rfcStatusHierarchy : List (Chars × List Chars) :=
  [("Internet Standard".toList, ["internet standard".toList]),
   ("Draft Standard".toList, ["draft standard".toList, "ds".toList]),
   ("Proposed Standard".toList, ["proposed standard".toList, "ps".toList]),
   ("Standards Track".toList, ["standards track".toList, "std".toList]),
   ("Best Current Practice".toList, ["best current practice".toList, "bcp".toList]),
   ("Informational".toList, ["informational".toList, "info".toList]),
   ("Experimental".toList, ["experimental".toList, "exp".toList]),
   ("Historic".toList, ["historic".toList, "hist".toList])]

/-- Unanchored ordered alternation of case-insensitive literals. -/
def statusAltMatcher (alts : List Chars) (s : Chars) : Option Chars :=
  match alts with
  | [] => none
  | a :: rest => (pLitCI a pAny s).orElse (fun _ => statusAltMatcher rest s)

/-- `extractStatusName(statusText)` with the `lastIndex` cursors of
the eight module-level `ig` regexes threaded through (the source does
not reset them): first matching entry wins, later entries stay
untested. -/
def extractStatusName (statusText : Chars) :
    List (Chars × List Chars) → List Nat → Option Chars × List Nat
  | [], _ => (none, [])
  | (nm, alts) :: rest, cursors =>
    let (b, c') := gTest (statusAltMatcher alts) (cursors.headD 0) statusText
    if b then (some nm, c' :: cursors.tail)
    else
      let (r, cs') := extractStatusName statusText rest cursors.tail
      (r, c' :: cs')

/-- JavaScript string coercion of a possibly-undefined value as regex
or method input (`undefined` coerces to the string `"undefined"`). -/
def jsStrOpt (o : Option Chars) : Chars :=
  o.getD "undefined".toList

/-- `s.split(':')[1]`, the segment between the first and second colon
(`undefined`, i.e. `none`, when the string has no colon). -/
def splitColon1 (s : Chars) : Option Chars :=
  let pre := s.takeWhile (· ≠ ':')
  if pre.length < s.length then some ((s.drop (pre.length + 1)).takeWhile (· ≠ ':'))
  else none

end Idnits

namespace Idnits

/-! ## Data model of the parsed record (`data` object of `parse`) -/

/-- One entry of `data.header.authors`. -/
structure Author where
  name : Chars
  org : Option Chars := none
deriving DecidableEq, Repr

/-- `data.header.date`: the `{day, month, year}` object; `day` is
`none` when the day group was absent (`parseInt(undefined)` is
`NaN`). -/
structure DateVal where
  day : Option Nat
  month : Chars
  year : Nat
deriving DecidableEq, Repr

/-- The `data.header` object.  `expires` stores the date groups fed
to `DateTime.fromFormat` (day string defaulted to `"1"`, month,
year). -/
structure HeaderData where
  authors : List Author := []
  date : Option DateVal := none
  source : Option Chars := none
  expires : Option (Chars × Chars × Chars) := none
  rfcNumber : Option Chars := none
  intendedStatus : Option Chars := none
  obsoletes : Option (List Chars) := none
  category : Option Chars := none
  issn : Option Chars := none
deriving DecidableEq, Repr

/-- The `data.content` object: per-section line buffers, `none` until
the section is observed. -/
structure ContentData where
  abstract : Option (List Chars) := none
  introduction : Option (List Chars) := none
  securityConsiderations : Option (List Chars) := none
  authorAddress : Option (List Chars) := none
  references : Option (List Chars) := none
  ianaConsiderations : Option (List Chars) := none
deriving DecidableEq, Repr

/-- Buffer of a tracked section. -/
def ContentData.get (c : ContentData) : SectionKey → Option (List Chars)
  | .abstract => c.abstract
  | .introduction => c.introduction
  | .securityConsiderations => c.securityConsiderations
  | .authorAddress => c.authorAddress
  | .references => c.references
  | .ianaConsiderations => c.ianaConsiderations

/-- Buffer replacement of a tracked section. -/
def ContentData.set (c : ContentData) (k : SectionKey) (v : Option (List Chars)) : ContentData :=
  match k with
  | .abstract => { c with abstract := v }
  | .introduction => { c with introduction := v }
  | .securityConsiderations => { c with securityConsiderations := v }
  | .authorAddress => { c with authorAddress := v }
  | .references => { c with references := v }
  | .ianaConsiderations => { c with ianaConsiderations := v }

/-- Marker record of a tracked section; `endIdx` is the source field
`end` (a Lean keyword). -/
structure SectionMarker where
  start : Nat := 0
  endIdx : Nat := 0
  closed : Bool := false
deriving DecidableEq, Repr

/-- The `markers.header` record. -/
structure HeaderMarker where
  start : Nat := 0
  endIdx : Nat := 0
  lastAuthor : Nat := 0
  closed : Bool := false
deriving DecidableEq, Repr

/-- The `markers` object of the scan. -/
structure Markers where
  header : HeaderMarker := {}
  title : Nat := 0
  slug : Nat := 0
  abstract : SectionMarker := {}
  introduction : SectionMarker := {}
  securityConsiderations : SectionMarker := {}
  authorAddress : SectionMarker := {}
  references : SectionMarker := {}
  ianaConsiderations : SectionMarker := {}
deriving DecidableEq, Repr

/-- Marker of a tracked section (`markers[currentSection]`). -/
def Markers.get (m : Markers) : SectionKey → SectionMarker
  | .abstract => m.abstract
  | .introduction => m.introduction
  | .securityConsiderations => m.securityConsiderations
  | .authorAddress => m.authorAddress
  | .references => m.references
  | .ianaConsiderations => m.ianaConsiderations

/-- Marker replacement of a tracked section. -/
def Markers.set (m : Markers) (k : SectionKey) (v : SectionMarker) : Markers :=
  match k with
  | .abstract => { m with abstract := v }
  | .introduction => { m with introduction := v }
  | .securityConsiderations => { m with securityConsiderations := v }
  | .authorAddress => { m with authorAddress := v }
  | .references => { m with references := v }
  | .ianaConsiderations => { m with ianaConsiderations := v }

/-- One entry of `possibleIssues.inlineCode`. -/
structure InlineIssue where
  line : Nat
  pos : Nat
deriving DecidableEq, Repr

/-- One entry of `possibleIssues.misspeled2119Keywords`. -/
structure MisspellIssue where
  invalidKeyword : Chars
  line : Nat
  pos : Nat
deriving DecidableEq, Repr

/-- The `data.possibleIssues` object. -/
structure PossibleIssues where
  inlineCode : List InlineIssue := []
  misspeled2119Keywords : List MisspellIssue := []
deriving DecidableEq, Repr

/-- One entry of `extractedElements.keywords2119`. -/
structure KeywordHit where
  keyword : Chars
  line : Nat
deriving DecidableEq, Repr

/-- One entry of the reference-section citation lists. -/
structure RefEntry where
  value : Chars
  subsection : Option SubKey
deriving DecidableEq, Repr

/-- The `data.extractedElements` object. -/
structure ExtractedElements where
  fqdnDomains : List Chars := []
  ipv4 : List Chars := []
  ipv6 : List Chars := []
  keywords2119 : List KeywordHit := []
  boilerplate2119Keywords : List Chars := []
  obsoletesRfc : List Chars := []
  updatesRfc : List Chars := []
  nonReferenceSectionRfc : List Chars := []
  referenceSectionRfc : List RefEntry := []
  nonReferenceSectionDraftReferences : List Chars := []
  referenceSectionDraftReferences : List RefEntry := []
deriving DecidableEq, Repr

/-- The `data.boilerplate` flags. -/
structure BoilerplateFlags where
  rfc2119 : Bool
  rfc8174 : Bool
  similar2119boilerplate : Bool
deriving DecidableEq, Repr

/-- The `data.references` flags. -/
structure ReferencesFlags where
  rfc2119 : Bool := false
  rfc8174 : Bool := false
deriving DecidableEq, Repr

/-- The whole `data` record built by `parse` (`markers` is attached
at the end of the scan, as in the source). -/
structure DocData where
  pageCount : Nat := 1
  header : HeaderData := {}
  content : ContentData := {}
  title : Option Chars := none
  slug : Option Chars := none
  possibleIssues : PossibleIssues := {}
  extractedElements : ExtractedElements := {}
  boilerplate : BoilerplateFlags
  references : ReferencesFlags := {}
  markers : Markers := {}
deriving DecidableEq, Repr

/-- Modelled from the spec: `src/lib/helpers/error.mjs` is not among
the given sources; the spec describes the failure surface as a single
typed parsing failure carrying a code and a message, which this
container records (`new ValidationError(code, message)`). -/
structure ValidationError where
  code : Chars
  message : Chars
deriving DecidableEq, Repr

/-- The runtime exceptions that the scan of `parse` can raise, with
the message text of the JavaScript engine (quotes elided). -/
inductive JsError where
  | nullGroups
  | undefinedIndexOf
deriving DecidableEq, Repr

/-- Message of a modelled JavaScript exception (`err.message`). -/
def JsError.message : JsError → Chars
  | .nullGroups => "Cannot read properties of null (reading groups)".toList
  | .undefinedIndexOf => "Cannot read properties of undefined (reading indexOf)".toList

/-- The value returned by `parse`. -/
structure TXTDoc where
  docKind : Option Chars
  body : Chars
  data : DocData
  filename : Chars
  type : Chars
deriving DecidableEq, Repr

/-- The module-level mutable regex state of `txt.mjs` and
`rfc-status-hierarchy.mjs`: the `lastIndex` cursors of every regex
the source tests or execs statefully.  This state survives between
`parse` calls. -/
structure RegexState where
  bpRfc2119Last : Nat := 0
  bpRfc2119AltLast : Nat := 0
  bpRfc8174Last : Nat := 0
  partsLast : List (List Nat) :=
    [List.replicate 6 0, List.replicate 6 0, List.replicate 6 0]
  inlineLast : Nat := 0
  subsecLast : Nat := 0
  statusLast : List Nat := List.replicate 8 0
deriving DecidableEq, Repr

/-- The fresh module-load state: every cursor at 0. -/
def initialRegexState : RegexState := {}

/-- The full state of the scan loop: the `data` record under
construction, the `markers`, the loop locals and the regex cursors
touched inside the loop. -/
structure ScanState where
  data : DocData
  markers : Markers := {}
  docKind : Option Chars := none
  lineIdx : Nat := 0
  currentSection : Option SectionKey := none
  currentSubSection : Option SubKey := none
  inCodeBlock : Bool := false
  inlineLast : Nat := 0
  subsecLast : Nat := 0
  statusLast : List Nat := List.replicate 8 0
deriving DecidableEq, Repr

/-- Marker replacement helper. -/
def ScanState.withMarker (st : ScanState) (k : SectionKey) (v : SectionMarker) : ScanState :=
  { st with markers := st.markers.set k v }

end Idnits

namespace Idnits

/-! ## The scan loop of `parse`, one phase per source block -/

/-- Digit-string to number (`parseInt` on an all-digit string). -/
def parseNatDigits (ds : Chars) : Nat :=
  ds.foldl (fun n c => n * 10 + (c.toNat - 48)) 0

/-- Split on every comma (`String.prototype.split(',')`). -/
def splitOnComma (s : Chars) : List Chars :=
  s.splitOn ','

/-- Inline code check (source lines 228-236): outside code blocks,
one stateful `INLINE_CODE_FORMAT.exec(line)`; a match is recorded
with `pos = ++match.index`. -/
def inlineCodeCheck (st : ScanState) (line : Chars) : ScanState :=
  if st.inCodeBlock then st
  else
    match INLINE_CODE_FORMAT_exec st.inlineLast line with
    | some (idx, e) =>
      { st with
          data.possibleIssues.inlineCode :=
            st.data.possibleIssues.inlineCode ++ [⟨st.lineIdx, idx + 1⟩],
          inlineLast := e }
    | none => { st with inlineLast := 0 }

/-- One matched RFC number of the extraction loop (source lines
238-252): outside the References section the number joins the
deduplicated `nonReferenceSectionRfc` list, inside it the
`referenceSectionRfc` list tagged with the current sub-section.  The
looped `RFC_REFERENCE_RE.exec` always runs to exhaustion, so its
`lastIndex` is 0 at every loop entry and exit and the matches are
computed statelessly. -/
def rfcRefStep (st : ScanState) (num : Chars) : ScanState :=
  if st.currentSection ≠ some .references then
    if num ∈ st.data.extractedElements.nonReferenceSectionRfc then st
    else { st with
      data.extractedElements.nonReferenceSectionRfc :=
        st.data.extractedElements.nonReferenceSectionRfc ++ [num] }
  else
    if (st.data.extractedElements.referenceSectionRfc.map (·.value)).contains num then st
    else { st with
      data.extractedElements.referenceSectionRfc :=
        st.data.extractedElements.referenceSectionRfc ++ [⟨num, st.currentSubSection⟩] }

/-- RFC citation extraction (source lines 238-252), folding
`rfcRefStep` over the matched numbers. -/
def rfcRefExtract (st : ScanState) (trimmed : Chars) : ScanState :=
  (RFC_REFERENCE_RE_numbers trimmed).foldl rfcRefStep st

/-- One matched bracketed citation of the draft-reference loop
(source lines 255-269), stateless for the same exhaustion reason. -/
def draftRefStep (st : ScanState) (nm : Chars) : ScanState :=
  if st.currentSection ≠ some .references then
    if nm ∈ st.data.extractedElements.nonReferenceSectionDraftReferences then st
    else { st with
      data.extractedElements.nonReferenceSectionDraftReferences :=
        st.data.extractedElements.nonReferenceSectionDraftReferences ++ [nm] }
  else
    if (st.data.extractedElements.referenceSectionDraftReferences.map (·.value)).contains nm then st
    else { st with
      data.extractedElements.referenceSectionDraftReferences :=
        st.data.extractedElements.referenceSectionDraftReferences ++ [⟨nm, st.currentSubSection⟩] }

/-- Draft citation extraction (source lines 255-269). -/
def draftRefExtract (st : ScanState) (trimmed : Chars) : ScanState :=
  (NON_RFC_REFERENCE_RE_matches trimmed).foldl draftRefStep st

/-- Reference flags (source lines 272-277). -/
def refFlagsCheck (st : ScanState) (trimmed : Chars) : ScanState :=
  let st := if containsLitCI "[RFC2119]".toList trimmed then
      { st with data.references.rfc2119 := true } else st
  if containsLitCI "[RFC8174]".toList trimmed then
    { st with data.references.rfc8174 := true } else st

/-- Keyword extraction (source lines 280-283). -/
def keywordsExtract (st : ScanState) (trimmed : Chars) : ScanState :=
  { st with
      data.extractedElements.keywords2119 :=
        st.data.extractedElements.keywords2119 ++
          (KEYWORDS_PATTERN_matches trimmed).map (fun m => ⟨m.2, st.lineIdx⟩) }

/-- Invalid keyword combinations (source lines 286-289), on the raw
line, with `pos = ++match.index`. -/
def invalidExtract (st : ScanState) (line : Chars) : ScanState :=
  { st with
      data.possibleIssues.misspeled2119Keywords :=
        st.data.possibleIssues.misspeled2119Keywords ++
          (INVALID_COMBINATIONS_PATTERN_matches line).map (fun m => ⟨m.2, st.lineIdx, m.1 + 1⟩) }

/-- FQDN extraction (source lines 292-295). -/
def fqdnExtract (st : ScanState) (trimmed : Chars) : ScanState :=
  { st with
      data.extractedElements.fqdnDomains :=
        st.data.extractedElements.fqdnDomains ++ FQDN_RE_domains trimmed }

/-- IPv4 and IPv6 extraction (source lines 298-306). -/
def ipExtract (st : ScanState) (trimmed : Chars) : ScanState :=
  { st with
      data.extractedElements.ipv4 :=
        st.data.extractedElements.ipv4 ++ IPV4_LOOSE_RE_matches trimmed,
      data.extractedElements.ipv6 :=
        st.data.extractedElements.ipv6 ++ IPV6_LOOSE_RE_matches trimmed }

/-- JavaScript truthiness of an optional string. -/
def jsTruthy : Option Chars → Bool
  | none => false
  | some s => ¬ s.isEmpty

/-- Trailing orgless authors get their `org` assigned: the
`data.header.authors.findLast` callback of the source mutates every
author from the end whose `org` is unset, stopping at the first
author that already has one (including an empty one). -/
def fillOrgsFromEnd (v : Chars) (authors : List Author) : List Author :=
  (go authors.reverse).reverse
where
  go : List Author → List Author
  | [] => []
  | a :: rest => if a.org.isSome then a :: rest else { a with org := some v } :: go rest

/-- Left-column header processing (source lines 334-386): date,
document kind, intended status, obsoletes (its missing-colon access
throws), category, ISSN, expires. -/
def headerLeftSteps (st : ScanState) (left : Chars) : ScanState × Option JsError :=
  if left.isEmpty then (st, none)
  else
    let st := match DATE_RE left with
      | some (d, m, y) =>
        { st with data.header.date := some ⟨d.map parseNatDigits, m, parseNatDigits y⟩ }
      | none => st
    let st :=
      if left = "Internet-Draft".toList then { st with docKind := some "draft".toList }
      else if litAt "Request for Comments".toList left then
        { st with data.header.rfcNumber := (splitColon1 left).map jsTrim,
                  docKind := some "rfc".toList }
      else st
    let st :=
      if litAt "Intended".toList left then
        let raw := (splitColon1 left).map jsTrim
        let (clean, statusLast') :=
          extractStatusName (jsStrOpt raw) rfcStatusHierarchy st.statusLast
        { st with data.header.intendedStatus := clean.orElse (fun _ => raw),
                  statusLast := statusLast' }
      else st
    if litAt "Obsoletes".toList left then
      match (splitColon1 left).map jsTrim with
      | none => (st, some .undefinedIndexOf)
      | some v =>
        let obs := if v.contains ',' then (splitOnComma v).map jsTrim else [v]
        afterObsoletes { st with data.header.obsoletes := some obs }
    else afterObsoletes st
where
  /-- Category, ISSN and Expires (source lines 367-386). -/
  afterObsoletes (st : ScanState) : ScanState × Option JsError :=
    let st :=
      if litAt "Category".toList left then
        let raw := (splitColon1 left).map jsTrim
        let (clean, statusLast') :=
          extractStatusName (jsStrOpt raw) rfcStatusHierarchy st.statusLast
        { st with data.header.category := clean.orElse (fun _ => raw),
                  statusLast := statusLast' }
      else st
    let st :=
      if litAt "ISSN".toList left then
        { st with data.header.issn := (splitColon1 left).map jsTrim }
      else st
    let st :=
      if litAt "Expires".toList left then
        match DATE_RE (jsStrOpt ((splitColon1 left).map jsTrim)) with
        | some (d, m, y) => { st with data.header.expires := some (d.getD "1".toList, m, y) }
        | none => st
      else st
    (st, none)

/-- Right-column header processing (source lines 387-421): author
names and organizations, only while no header date was parsed. -/
def headerRightSteps (st : ScanState) (right : Option Chars) : ScanState :=
  match right with
  | none => st
  | some r =>
    if r.isEmpty then st
    else if st.data.header.date.isSome then st
    else
      let st :=
        if AUTHOR_NAME_RE r then
          let st :=
            if st.markers.header.lastAuthor + 1 < st.lineIdx then
              { st with data.header.authors := fillOrgsFromEnd [] st.data.header.authors }
            else st
          { st with data.header.authors := st.data.header.authors ++ [Author.mk r none] }
        else
          { st with data.header.authors := fillOrgsFromEnd r st.data.header.authors }
      { st with markers.header.lastAuthor := st.lineIdx }

/-- Sequencing in the presence of a thrown exception: the second part
runs only when the first did not throw. -/
def andThen (r : ScanState × Option JsError)
    (f : ScanState → ScanState × Option JsError) : ScanState × Option JsError :=
  match r with
  | (st, some e) => (st, some e)
  | (st, none) => f st

/-- Header continuation (source lines 323-422): either the blank-gap
close that names the title, or one more header line. -/
def headerContinuation (st : ScanState) (line trimmed : Chars) : ScanState × Option JsError :=
  if st.markers.header.endIdx + 1 < st.lineIdx then
    ({ st with markers.header.closed := true, markers.title := st.lineIdx,
               data.title := some trimmed }, none)
  else
    let st := { st with markers.header.endIdx := st.lineIdx }
    let (left, right) :=
      match LINE_VALUES_EXTRACT_RE line with
      | some (l, r) => (l, some r)
      | none => (trimmed, none)
    andThen (headerLeftSteps st left) (fun st => (headerRightSteps st right, none))

/-- Section detection and marker bookkeeping (source lines 465-480):
a candidate header closes the open section, then the matcher table
decides whether a tracked section opens. -/
def sectionDetection (st : ScanState) (trimmed : Chars) : ScanState :=
  if SECTION_PATTERN trimmed ∨ AUTHOR_SECTION_RE trimmed then
    let st :=
      match st.currentSection with
      | some k =>
        if ¬ (st.markers.get k).closed then
          st.withMarker k { st.markers.get k with endIdx := st.lineIdx - 1, closed := true }
        else st
      | none => st
    match findSectionMatch trimmed with
    | some k =>
      let st := { st with currentSection := some k }
      let st := st.withMarker k { st.markers.get k with start := st.lineIdx }
      { st with data.content := st.data.content.set k (some []) }
    | none => { st with currentSection := none }
  else st

/-- Sub-section detection (source lines 483-488), with the stateful
`SUBSECTION_PATTERN.test` cursor. -/
def subsectionDetection (st : ScanState) (trimmed : Chars) : ScanState :=
  let (b, subsecLast') := SUBSECTION_PATTERN_test st.subsecLast trimmed
  let st := { st with subsecLast := subsecLast' }
  if b ∧ ¬ TOC_PATTERN trimmed then
    match findSubsectionMatch trimmed with
    | some k => { st with currentSubSection := some k }
    | none => { st with currentSubSection := none }
  else st

/-- Content attribution (source lines 491-493).  A nonzero `start`
always comes with an initialized buffer, so the default is never
taken. -/
def contentAppend (st : ScanState) (trimmed : Chars) : ScanState :=
  match st.currentSection with
  | some k =>
    if (st.markers.get k).start ≠ 0 ∧ ¬ (st.markers.get k).closed then
      { st with data.content :=
          st.data.content.set k (some ((st.data.content.get k).getD [] ++ [trimmed])) }
    else st
  | none => st

/-- Everything after the first header block falls through to here
(source lines 424-493): slug line, abstract open and auto-close, the
residual second header block with its `continue`s, then section,
sub-section and content processing. -/
def afterHeaderBlocks (st : ScanState) (line trimmed : Chars) : ScanState × Option JsError :=
  if jsTruthy st.data.title ∧ st.lineIdx = st.markers.title + 1 then
    ({ st with markers.slug := st.lineIdx, data.slug := some trimmed }, none)
  else
    let st :=
      if trimmed = "Abstract".toList then
        { st with markers.abstract.start := st.lineIdx, currentSection := some .abstract,
                  data.content.abstract := some [] }
      else if st.markers.abstract.start ≠ 0 ∧ ¬ st.markers.abstract.closed then
        if litAt "Status of".toList trimmed ∨ ¬ litAt "  ".toList line then
          { st with markers.abstract.endIdx := st.lineIdx - 1, markers.abstract.closed := true }
        else st
      else st
    if st.markers.header.start = 0 then
      -- residual header block of the source (lines 443-452), dead in
      -- practice because the first block always sets the start
      let st := { st with markers.header.start := st.lineIdx,
                          markers.header.endIdx := st.lineIdx }
      let st :=
        match LINE_VALUES_EXTRACT_RE trimmed with
        | some (l, r) =>
          { st with data.header.source := some l,
                    data.header.authors := st.data.header.authors ++ [Author.mk r none] }
        | none => st
      ({ st with markers.header.lastAuthor := st.lineIdx }, none)
    else if ¬ st.markers.header.closed then
      if st.markers.header.endIdx + 1 < st.lineIdx then
        ({ st with markers.header.closed := true, markers.title := st.lineIdx,
                   data.title := some trimmed }, none)
      else ({ st with markers.header.endIdx := st.lineIdx }, none)
    else
      let st := sectionDetection st trimmed
      let st := subsectionDetection st trimmed
      (contentAppend st trimmed, none)

/-- The header-and-sections part of the loop body (source lines
308-493). -/
def structuralPhase (st : ScanState) (line trimmed : Chars) : ScanState × Option JsError :=
  if st.markers.header.start = 0 then
    let st := { st with markers.header.start := st.lineIdx, markers.header.endIdx := st.lineIdx }
    match LINE_VALUES_EXTRACT_RE trimmed with
    | none => (st, some .nullGroups)
    | some (left, right) =>
      ({ st with data.header.source := some left,
                 data.header.authors := st.data.header.authors ++ [Author.mk right none],
                 markers.header.lastAuthor := st.lineIdx }, none)
  else
    let step1 : ScanState × Option JsError :=
      if ¬ st.markers.header.closed then headerContinuation st line trimmed
      else (st, none)
    andThen step1 (fun st => afterHeaderBlocks st line trimmed)

/-- One iteration of the `for (const line of rawText.split('\n'))`
loop: line counter, page break and blank-line skips, code block
toggles, the lexical extractors, then the structural phase.  On an
error the returned state holds the mutations made before the throw. -/
def stepLine (st : ScanState) (line : Chars) : ScanState × Option JsError :=
  let trimmed := jsTrim line
  let st := { st with lineIdx := st.lineIdx + 1 }
  if containsFF line then ({ st with data.pageCount := st.data.pageCount + 1 }, none)
  else if trimmed.isEmpty then (st, none)
  else
    let st := if containsLitCI "<CODE BEGINS>".toList trimmed then { st with inCodeBlock := true } else st
    let st := if containsLitCI "<CODE ENDS>".toList trimmed then { st with inCodeBlock := false } else st
    let st := inlineCodeCheck st line
    let st := rfcRefExtract st trimmed
    let st := draftRefExtract st trimmed
    let st := refFlagsCheck st trimmed
    let st := keywordsExtract st trimmed
    let st := invalidExtract st line
    let st := fqdnExtract st trimmed
    let st := ipExtract st trimmed
    structuralPhase st line trimmed

/-- The whole scan loop; stops at the first thrown error. -/
def scanLines (st : ScanState) : List Chars → ScanState × Option JsError
  | [] => (st, none)
  | l :: ls =>
    match stepLine st l with
    | (st', none) => scanLines st' ls
    | (st', some e) => (st', some e)

/-- Force-close of the last open section (source lines 497-500). -/
def closeLastSection (st : ScanState) : ScanState :=
  match st.currentSection with
  | some k =>
    if ¬ (st.markers.get k).closed then
      st.withMarker k { st.markers.get k with endIdx := st.lineIdx, closed := true }
    else st
  | none => st

/-- Deduplicating push of `boilerplate2119Keywords`. -/
def pushUniq (l : List Chars) (x : Chars) : List Chars :=
  if x ∈ l then l else l ++ [x]

/-- The boilerplate-keyword pass (source lines 179-190): for each
boilerplate pattern, the keywords of its first whole-text match,
deduplicated in order of first appearance. -/
def boilerplateKeywords (normalizedText : Chars) : List Chars :=
  [bpRfc2119, bpRfc2119Alt, bpRfc8174].foldl (fun acc p =>
    match firstMatchStr p normalizedText with
    | some m0 => ((KEYWORDS_PATTERN_matches m0).map (·.2)).foldl pushUniq acc
    | none => acc) []

/-- The error value thrown by the catch clause (source line 503):
`new ValidationError('TXT_PARSING_FAILED', `Error while parsing Line
N: message`)`. -/
def txtParsingFailed (n : Nat) (m : Chars) : ValidationError :=
  ⟨"TXT_PARSING_FAILED".toList,
   "Error while parsing Line ".toList ++ (Nat.repr n).toList ++ ": ".toList ++ m⟩

/-- Everything `parse` does before the line loop (source lines
113-199): whitespace normalization, the stateful boilerplate `test`
calls, the keyword pass (whose `normalizedText.match(pattern)` calls
always search from index 0 and reset each pattern `lastIndex` to 0),
the similar-boilerplate check with its part cursors, and the
obsoletes/updates extraction; yields the initial scan state and the
updated part cursors. -/
def parseSetup (rs : RegexState) (rawText : Chars) : ScanState × List (List Nat) :=
  let normalizedText := normalizeWs rawText
  let (b2119, _) := gTest bpRfc2119 rs.bpRfc2119Last normalizedText
  let rfc2119Flag :=
    b2119 ∨ (¬ b2119 ∧ (gTest bpRfc2119Alt rs.bpRfc2119AltLast normalizedText).1)
  let (b8174, _) := gTest bpRfc8174 rs.bpRfc8174Last normalizedText
  let bpKeywords := boilerplateKeywords normalizedText
  let (similarRaw, partsLast') :=
    hasBoilerplateMatch normalizedText
      [BOILERPLATE_PARTS_rfc2119, BOILERPLATE_PARTS_rfc2119_alt, BOILERPLATE_PARTS_rfc8174]
      rs.partsLast
  let similar := similarRaw ∧ ¬ (rfc2119Flag ∨ b8174)
  let data0 : DocData :=
    { boilerplate := ⟨rfc2119Flag, b8174, similar⟩,
      extractedElements :=
        { boilerplate2119Keywords := bpKeywords,
          obsoletesRfc := extractRfcNumbersPlain obsoletesAttempt normalizedText,
          updatesRfc := extractRfcNumbersPlain updatesAttempt normalizedText } }
  ({ data := data0, inlineLast := rs.inlineLast, subsecLast := rs.subsecLast,
     statusLast := rs.statusLast }, partsLast')

/-- The regex state at the end of a `parse` call (successful or not):
the three `BOILERPLATE_PATTERNS` cursors were reset by the keyword
pass, the other cursors are whatever the scan left. -/
def mkRegexState (partsLast' : List (List Nat)) (st : ScanState) : RegexState :=
  { bpRfc2119Last := 0, bpRfc2119AltLast := 0, bpRfc8174Last := 0,
    partsLast := partsLast', inlineLast := st.inlineLast,
    subsecLast := st.subsecLast, statusLast := st.statusLast }

/-- The `parse(rawText, filename)` of `src/lib/parsers/txt.mjs`,
with the module-level regex state threaded through: the setup phase,
the scan loop, the final section close, and either the completed
document record or the single typed `TXT_PARSING_FAILED` error built
by the catch clause. -/
def parse (rs : RegexState) (rawText : Chars) (filename : Chars) :
    Except ValidationError TXTDoc × RegexState :=
  let st0 := (parseSetup rs rawText).1
  let partsLast' := (parseSetup rs rawText).2
  match scanLines st0 (splitLines rawText) with
  | (st, none) =>
    let st := closeLastSection st
    (.ok { docKind := st.docKind, body := rawText,
           data := { st.data with markers := st.markers },
           filename := filename, type := "txt".toList }, mkRegexState partsLast' st)
  | (st, some e) =>
    (.error (txtParsingFailed st.lineIdx e.message), mkRegexState partsLast' st)

end Idnits

namespace Idnits

/-! ## Concrete input documents used to settle the claims -/

/-- A newline, for assembling raw inputs. -/
def nlChar : Chars := ['\n']

/-- The parsed data of a successful parse, for stating concrete
results compactly. -/
def parsedData (r : Except ValidationError TXTDoc) : Option DocData :=
  r.toOption.map (·.data)

/-- Two-line input whose first and last lines both contain
inline-code-comment matches: the module-level `INLINE_CODE_FORMAT`
cursor left by the last line of one parse makes the next parse miss
the match on the first line. -/
def docC1raw : Chars := "#a  b".toList ++ nlChar ++ "q /*".toList

/-- First parse of `docC1raw` from the fresh module state. -/
def c1first : Except ValidationError TXTDoc × RegexState :=
  parse initialRegexState docC1raw "doc.txt".toList

/-- Second parse of the same input in the same process. -/
def c1second : Except ValidationError TXTDoc × RegexState :=
  parse c1first.2 docC1raw "doc.txt".toList

/-- Header, title, slug, a real `1.  Introduction` header, then a
table-of-contents lookalike line and one more body line. -/
def docC2raw : Chars :=
  "a  b".toList ++ nlChar ++ nlChar ++ "t".toList ++ nlChar ++ "s".toList ++ nlChar ++
  "1.  Introduction".toList ++ nlChar ++ "2.  Foo ..... 3".toList ++ nlChar ++ "x".toList

/-- The table-of-contents lookalike line of `docC2raw` (line 6). -/
def tocLineC2 : Chars := "2.  Foo ..... 3".toList

/-- A document whose `Abstract` line appears while the Introduction
section is still open. -/
def docC3raw : Chars :=
  "a  b".toList ++ nlChar ++ nlChar ++ "t".toList ++ nlChar ++ "s".toList ++ nlChar ++
  "1.  Introduction".toList ++ nlChar ++ "Abstract".toList

/-- A document whose second line contains a form feed together with
an RFC citation token. -/
def docC5raw : Chars := "a  b".toList ++ nlChar ++ ['\x0c'] ++ "RFC 1234".toList

/-- The header-parsing scenario of the claim: `idr`, twenty spaces,
`Z. Zhang`, then a two-column `Obsoletes:` line. -/
def docC6raw : Chars :=
  "idr".toList ++ List.replicate 20 ' ' ++ "Z. Zhang".toList ++ nlChar ++
  "Obsoletes: 5678, 1234".toList ++ List.replicate 12 ' ' ++ "Arrcus".toList

/-- A body with two form feeds on the same physical line. -/
def docC7araw : Chars :=
  "a  b".toList ++ nlChar ++ "x".toList ++ ['\x0c', '\x0c'] ++ "y".toList

/-- A body with two form feeds on two different lines. -/
def docC7braw : Chars :=
  "a  b".toList ++ nlChar ++ "x".toList ++ ['\x0c'] ++ "y".toList ++ nlChar ++
  "z".toList ++ ['\x0c'] ++ "w".toList

/-- The citation round-trip scenario: `RFC 1234` outside any
References section, then a References section with a Normative
References subsection containing `[RFC5678]`. -/
def docC8raw : Chars :=
  "a  b".toList ++ nlChar ++ nlChar ++ "t".toList ++ nlChar ++ "s".toList ++ nlChar ++
  "RFC 1234 x".toList ++ nlChar ++ "5.  References".toList ++ nlChar ++
  "5.1.  Normative References".toList ++ nlChar ++ "[RFC5678]".toList

/-- The exact canonical RFC 2119 boilerplate sentence (the form
without `NOT RECOMMENDED` and without `BCP 14`). -/
def bpSentence : Chars :=
  ("The key words \"MUST\", \"MUST NOT\", \"REQUIRED\", \"SHALL\", \"SHALL NOT\", " ++
   "\"SHOULD\", \"SHOULD NOT\", \"RECOMMENDED\", \"MAY\", and \"OPTIONAL\" in this " ++
   "document are to be interpreted as described in RFC 2119.").toList

/-- Only fragments of the boilerplate: the keyword list without the
interpretation clause and the RFC 2119 citation. -/
def bpPartial : Chars :=
  ("The key words \"MUST\", \"MUST NOT\", \"REQUIRED\", \"SHALL\", \"SHALL NOT\", " ++
   "\"SHOULD\", \"SHOULD NOT\", \"RECOMMENDED\", \"NOT RECOMMENDED\", \"MAY\", and " ++
   "\"OPTIONAL\" are very important.").toList

/-- A document containing the exact canonical boilerplate sentence. -/
def docC9araw : Chars :=
  "a  b".toList ++ nlChar ++ nlChar ++ "t".toList ++ nlChar ++ "s".toList ++ nlChar ++ bpSentence

/-- A document containing only boilerplate fragments. -/
def docC9braw : Chars :=
  "a  b".toList ++ nlChar ++ nlChar ++ "t".toList ++ nlChar ++ "s".toList ++ nlChar ++ bpPartial

/-- A body line holding an RFC citation, for instantiating the
per-line extraction theorem. -/
def c5line : Chars := "See RFC 2119 please".toList

/-- A section-candidate line that carries a citation token, for the
extraction-order theorem (its title text matches no tracked section,
so it closes the current section and opens none). -/
def c10line : Chars := "5.  References [RFC9999]".toList

/-- A body line inside the References section carrying a bracketed
citation. -/
def c10refline : Chars := "[RFC8888] foo".toList

/-- The RFC numbers recorded anywhere in the extracted elements
(outside or inside the References section). -/
def rfcRecordedAnywhere (e : ExtractedElements) (num : Chars) : Prop :=
  num ∈ e.nonReferenceSectionRfc ∨ num ∈ e.referenceSectionRfc.map (·.value)

/-- A draft citation recorded in either of the two draft-reference
lists (source lines 255-269). -/
def draftRecordedAnywhere (e : ExtractedElements) (nm : Chars) : Prop :=
  nm ∈ e.nonReferenceSectionDraftReferences ∨
  nm ∈ e.referenceSectionDraftReferences.map (·.value)

end Idnits

namespace Idnits

/-! ## Auxiliary predicates and states for the theorems -/

/-- A mid-scan state with the header closed and the Introduction
section open, used to instantiate the universally quantified step
theorems at a concrete input. -/
def witnessScanState : ScanState :=
  { data := { boilerplate := ⟨false, false, false⟩ },
    markers := { header := { start := 1, endIdx := 1, closed := true },
                 title := 3, slug := 4,
                 introduction := { start := 5, endIdx := 0, closed := false } },
    lineIdx := 8,
    currentSection := some .introduction }

/-- A mid-scan state inside an open References section tagged with
the Normative References subsection. -/
def witnessRefState : ScanState :=
  { data := { boilerplate := ⟨false, false, false⟩ },
    markers := { header := { start := 1, endIdx := 1, closed := true },
                 title := 3, slug := 4,
                 references := { start := 6, endIdx := 0, closed := false } },
    lineIdx := 9,
    currentSection := some .references,
    currentSubSection := some .normative_references }

/-- The last character of the string exists and is not a digit. -/
def lastIsNonDigit (s : Chars) : Prop :=
  ∃ c t, s.reverse = c :: t ∧ isDigit c = false

/-- A matcher (or continuation) that accepts only nonempty strings
whose last character is not a digit. -/
def MatchLastNonDigit (m : Chars → Option Chars) : Prop :=
  ∀ s r, m s = some r → lastIsNonDigit s

/-- A matcher (or continuation) that accepts only the empty string or
strings whose last character is not a digit. -/
def MatchLastNonDigitOrEmpty (m : Chars → Option Chars) : Prop :=
  ∀ s r, m s = some r → s = [] ∨ lastIsNonDigit s

/-- Everything of the scan state that the lexical extraction phases
leave untouched. -/
def lexFrame (st : ScanState) :=
  (st.lineIdx, st.data.pageCount, st.markers, st.currentSection, st.currentSubSection,
   st.data.header, st.data.content, st.data.title, st.data.slug, st.docKind,
   st.subsecLast, st.statusLast, st.data.boilerplate, st.data.markers,
   st.inCodeBlock, st.data.extractedElements.obsoletesRfc, st.data.extractedElements.updatesRfc,
   st.data.extractedElements.boilerplate2119Keywords)

/-- Everything of the scan state that the structural phase (header,
title, slug, abstract, section bookkeeping) leaves untouched. -/
def structFrame (st : ScanState) :=
  (st.lineIdx, st.data.pageCount, st.data.possibleIssues, st.data.extractedElements,
   st.data.references, st.inCodeBlock, st.inlineLast, st.data.boilerplate, st.data.markers)

/-- The six tracked section-marker `start` fields, the values a TOC
line must never touch. -/
def secStarts (st : ScanState) :=
  (st.markers.abstract.start, st.markers.introduction.start,
   st.markers.securityConsiderations.start, st.markers.authorAddress.start,
   st.markers.references.start, st.markers.ianaConsiderations.start)

end Idnits

/-! ## Frame lemmas: what each phase of the scan leaves untouched -/

set_option maxHeartbeats 4000000
set_option maxRecDepth 100000

namespace Idnits

theorem markers_get_set (m : Markers) (k : SectionKey) (v : SectionMarker) (j : SectionKey) :
    (m.set k v).get j = if j = k then v else m.get j := by
  cases k <;> cases j <;> simp [Markers.get, Markers.set]

theorem foldl_proj_eq {α : Type} {β : Type} (P : ScanState → β) (f : ScanState → α → ScanState)
    (h : ∀ st x, P (f st x) = P st) (l : List α) : ∀ st, P (l.foldl f st) = P st := by
  induction l with
  | nil => intro st; rfl
  | cons x xs ih => intro st; exact (ih (f st x)).trans (h st x)

theorem inlineCodeCheck_lexFrame (st : ScanState) (line : Chars) :
    lexFrame (inlineCodeCheck st line) = lexFrame st := by
  unfold inlineCodeCheck
  split
  · rfl
  · split <;> rfl

theorem rfcRefExtract_lexFrame (st : ScanState) (t : Chars) :
    lexFrame (rfcRefExtract st t) = lexFrame st := by
  unfold rfcRefExtract
  exact foldl_proj_eq _ _ (fun st x => by unfold rfcRefStep; split <;> split <;> rfl) _ st

theorem draftRefExtract_lexFrame (st : ScanState) (t : Chars) :
    lexFrame (draftRefExtract st t) = lexFrame st := by
  unfold draftRefExtract
  exact foldl_proj_eq _ _ (fun st x => by unfold draftRefStep; split <;> split <;> rfl) _ st

theorem refFlagsCheck_lexFrame (st : ScanState) (t : Chars) :
    lexFrame (refFlagsCheck st t) = lexFrame st := by
  unfold refFlagsCheck
  split <;> split <;> rfl

theorem keywordsExtract_lexFrame (st : ScanState) (t : Chars) :
    lexFrame (keywordsExtract st t) = lexFrame st := rfl

theorem invalidExtract_lexFrame (st : ScanState) (t : Chars) :
    lexFrame (invalidExtract st t) = lexFrame st := rfl

theorem fqdnExtract_lexFrame (st : ScanState) (t : Chars) :
    lexFrame (fqdnExtract st t) = lexFrame st := rfl

theorem ipExtract_lexFrame (st : ScanState) (t : Chars) :
    lexFrame (ipExtract st t) = lexFrame st := rfl

end Idnits
namespace Idnits

theorem andThen_frame {β : Type} (P : ScanState → β) (r : ScanState × Option JsError)
    (f : ScanState → ScanState × Option JsError) (hf : ∀ s, P (f s).1 = P s) :
    P (andThen r f).1 = P r.1 := by
  rcases r with ⟨s, e⟩
  cases e
  · exact hf s
  · rfl

theorem headerLeftSteps_structFrame (st : ScanState) (left : Chars) :
    structFrame (headerLeftSteps st left).1 = structFrame st := by
  unfold headerLeftSteps headerLeftSteps.afterObsoletes
  repeat' split
  all_goals rfl

theorem headerRightSteps_structFrame (st : ScanState) (r : Option Chars) :
    structFrame (headerRightSteps st r) = structFrame st := by
  unfold headerRightSteps
  repeat' split
  all_goals rfl

theorem headerContinuation_structFrame (st : ScanState) (line t : Chars) :
    structFrame (headerContinuation st line t).1 = structFrame st := by
  unfold headerContinuation
  split
  · rfl
  · rw [andThen_frame structFrame _ _ (fun s => headerRightSteps_structFrame s _)]
    rw [headerLeftSteps_structFrame]
    rfl

theorem sectionDetection_structFrame (st : ScanState) (t : Chars) :
    structFrame (sectionDetection st t) = structFrame st := by
  unfold sectionDetection ScanState.withMarker
  repeat' split
  all_goals rfl

theorem subsectionDetection_structFrame (st : ScanState) (t : Chars) :
    structFrame (subsectionDetection st t) = structFrame st := by
  unfold subsectionDetection
  repeat' split
  all_goals rfl

theorem contentAppend_structFrame (st : ScanState) (t : Chars) :
    structFrame (contentAppend st t) = structFrame st := by
  unfold contentAppend
  repeat' split
  all_goals rfl

theorem afterHeaderBlocks_structFrame (st : ScanState) (line t : Chars) :
    structFrame (afterHeaderBlocks st line t).1 = structFrame st := by
  unfold afterHeaderBlocks
  repeat' (first | rfl | (try dsimp only); split)
  all_goals try simp only [contentAppend_structFrame, subsectionDetection_structFrame,
    sectionDetection_structFrame]
  all_goals rfl

theorem structuralPhase_structFrame (st : ScanState) (line t : Chars) :
    structFrame (structuralPhase st line t).1 = structFrame st := by
  unfold structuralPhase
  split
  · split <;> rfl
  · rw [andThen_frame structFrame _ _ (fun s => afterHeaderBlocks_structFrame s line t)]
    split
    · rw [headerContinuation_structFrame]
    · rfl

end Idnits
namespace Idnits

/-! ## Projections of the frame lemmas -/

theorem structuralPhase_lineIdx (st : ScanState) (line t : Chars) :
    (structuralPhase st line t).1.lineIdx = st.lineIdx :=
  congrArg Prod.fst (structuralPhase_structFrame st line t)

theorem structuralPhase_pageCount (st : ScanState) (line t : Chars) :
    (structuralPhase st line t).1.data.pageCount = st.data.pageCount :=
  congrArg (fun x => x.2.1) (structuralPhase_structFrame st line t)

theorem structuralPhase_extracted (st : ScanState) (line t : Chars) :
    (structuralPhase st line t).1.data.extractedElements = st.data.extractedElements :=
  congrArg (fun x => x.2.2.2.1) (structuralPhase_structFrame st line t)

theorem inlineCodeCheck_lineIdx (st : ScanState) (l : Chars) :
    (inlineCodeCheck st l).lineIdx = st.lineIdx :=
  congrArg Prod.fst (inlineCodeCheck_lexFrame st l)

theorem rfcRefExtract_lineIdx (st : ScanState) (t : Chars) :
    (rfcRefExtract st t).lineIdx = st.lineIdx :=
  congrArg Prod.fst (rfcRefExtract_lexFrame st t)

theorem draftRefExtract_lineIdx (st : ScanState) (t : Chars) :
    (draftRefExtract st t).lineIdx = st.lineIdx :=
  congrArg Prod.fst (draftRefExtract_lexFrame st t)

theorem refFlagsCheck_lineIdx (st : ScanState) (t : Chars) :
    (refFlagsCheck st t).lineIdx = st.lineIdx :=
  congrArg Prod.fst (refFlagsCheck_lexFrame st t)

theorem keywordsExtract_lineIdx (st : ScanState) (t : Chars) :
    (keywordsExtract st t).lineIdx = st.lineIdx := rfl

theorem invalidExtract_lineIdx (st : ScanState) (t : Chars) :
    (invalidExtract st t).lineIdx = st.lineIdx := rfl

theorem fqdnExtract_lineIdx (st : ScanState) (t : Chars) :
    (fqdnExtract st t).lineIdx = st.lineIdx := rfl

theorem ipExtract_lineIdx (st : ScanState) (t : Chars) :
    (ipExtract st t).lineIdx = st.lineIdx := rfl

theorem stepLine_lineIdx (st : ScanState) (l : Chars) :
    (stepLine st l).1.lineIdx = st.lineIdx + 1 := by
  unfold stepLine
  dsimp only
  split
  · rfl
  · split
    · rfl
    · split <;> split <;>
        simp only [structuralPhase_lineIdx, ipExtract_lineIdx, fqdnExtract_lineIdx,
          invalidExtract_lineIdx, keywordsExtract_lineIdx, refFlagsCheck_lineIdx,
          draftRefExtract_lineIdx, rfcRefExtract_lineIdx, inlineCodeCheck_lineIdx]

theorem inlineCodeCheck_pageCount (st : ScanState) (l : Chars) :
    (inlineCodeCheck st l).data.pageCount = st.data.pageCount :=
  congrArg (fun x => x.2.1) (inlineCodeCheck_lexFrame st l)

theorem rfcRefExtract_pageCount (st : ScanState) (t : Chars) :
    (rfcRefExtract st t).data.pageCount = st.data.pageCount :=
  congrArg (fun x => x.2.1) (rfcRefExtract_lexFrame st t)

theorem draftRefExtract_pageCount (st : ScanState) (t : Chars) :
    (draftRefExtract st t).data.pageCount = st.data.pageCount :=
  congrArg (fun x => x.2.1) (draftRefExtract_lexFrame st t)

theorem refFlagsCheck_pageCount (st : ScanState) (t : Chars) :
    (refFlagsCheck st t).data.pageCount = st.data.pageCount :=
  congrArg (fun x => x.2.1) (refFlagsCheck_lexFrame st t)

theorem stepLine_pageCount (st : ScanState) (l : Chars) :
    (stepLine st l).1.data.pageCount =
      st.data.pageCount + (if containsFF l then 1 else 0) := by
  unfold stepLine
  dsimp only
  split
  · simp_all
  · split
    · simp_all
    · split <;> split <;>
        simp_all [structuralPhase_pageCount, refFlagsCheck_pageCount,
          draftRefExtract_pageCount, rfcRefExtract_pageCount, inlineCodeCheck_pageCount,
          keywordsExtract, invalidExtract, fqdnExtract, ipExtract]

end Idnits
namespace Idnits

/-! ## Loop invariants of the scan -/

theorem scanLines_ok_lineIdx (ls : List Chars) :
    ∀ st st', scanLines st ls = (st', none) → st'.lineIdx = st.lineIdx + ls.length := by
  induction ls with
  | nil => intro st st' h; cases h; simp
  | cons l ls ih =>
    intro st st' h
    unfold scanLines at h
    split at h
    · rename_i st1 heq
      have h1 := ih _ _ h
      have h2 : st1.lineIdx = st.lineIdx + 1 := by
        have h2 := stepLine_lineIdx st l
        rw [heq] at h2
        exact h2
      simp only [List.length_cons]
      omega
    · cases h

theorem scanLines_err_bounds (ls : List Chars) :
    ∀ st st' e, scanLines st ls = (st', some e) →
      st.lineIdx + 1 ≤ st'.lineIdx ∧ st'.lineIdx ≤ st.lineIdx + ls.length := by
  induction ls with
  | nil => intro st st' e h; cases h
  | cons l ls ih =>
    intro st st' e h
    unfold scanLines at h
    split at h
    · rename_i st1 heq
      have h1 := ih _ _ _ h
      have h2 : st1.lineIdx = st.lineIdx + 1 := by
        have h2 := stepLine_lineIdx st l
        rw [heq] at h2
        exact h2
      simp only [List.length_cons]
      omega
    · rename_i st1 e1 heq
      cases h
      have h2 := stepLine_lineIdx st l
      rw [heq] at h2
      dsimp only at h2
      simp only [List.length_cons]
      omega

theorem scanLines_ok_pageCount (ls : List Chars) :
    ∀ st st', scanLines st ls = (st', none) →
      st'.data.pageCount = st.data.pageCount + ls.countP containsFF := by
  induction ls with
  | nil => intro st st' h; cases h; simp
  | cons l ls ih =>
    intro st st' h
    unfold scanLines at h
    split at h
    · rename_i st1 heq
      have h1 := ih _ _ h
      have h2 : st1.data.pageCount = st.data.pageCount + (if containsFF l then 1 else 0) := by
        have h2 := stepLine_pageCount st l
        rw [heq] at h2
        exact h2
      simp only [List.countP_cons]
      split at h2 <;> (simp_all; try omega)
    · cases h

theorem closeLastSection_pageCount (st : ScanState) :
    (closeLastSection st).data.pageCount = st.data.pageCount := by
  unfold closeLastSection ScanState.withMarker
  repeat' split
  all_goals rfl

theorem parseSetup_lineIdx (rs : RegexState) (raw : Chars) :
    (parseSetup rs raw).1.lineIdx = 0 := rfl

theorem parseSetup_pageCount (rs : RegexState) (raw : Chars) :
    (parseSetup rs raw).1.data.pageCount = 1 := rfl

end Idnits
namespace Idnits

theorem parse_shape (rs : RegexState) (raw fn : Chars) :
    (∃ doc rs2, parse rs raw fn = (.ok doc, rs2)) ∨
    (∃ n msg rs2, parse rs raw fn = (.error (txtParsingFailed n msg), rs2) ∧
      1 ≤ n ∧ n ≤ (splitLines raw).length) := by
  unfold parse
  dsimp only
  rcases hscan : scanLines (parseSetup rs raw).1 (splitLines raw) with ⟨st, e⟩
  cases e with
  | none => exact .inl ⟨_, _, rfl⟩
  | some err =>
    have hb := scanLines_err_bounds (splitLines raw) _ st err hscan
    have h0 := parseSetup_lineIdx rs raw
    exact .inr ⟨st.lineIdx, err.message, _, rfl, by omega, by omega⟩

theorem parse_ok_pageCount (rs : RegexState) (raw fn : Chars) (doc : TXTDoc)
    (rs2 : RegexState) (h : parse rs raw fn = (.ok doc, rs2)) :
    doc.data.pageCount = 1 + (splitLines raw).countP containsFF := by
  unfold parse at h
  dsimp only at h
  rcases hscan : scanLines (parseSetup rs raw).1 (splitLines raw) with ⟨st, e⟩
  rw [hscan] at h
  cases e with
  | none =>
    simp only [Prod.mk.injEq, Except.ok.injEq] at h
    obtain ⟨hdoc, -⟩ := h
    subst hdoc
    have hpc := scanLines_ok_pageCount (splitLines raw) _ st hscan
    have h1 := parseSetup_pageCount rs raw
    simp only [closeLastSection_pageCount]
    omega
  | some err => simp at h

end Idnits

namespace Idnits

/-! ## Membership and preservation lemmas for the citation folds -/

theorem rfcRefStep_currentSection (st : ScanState) (x : Chars) :
    (rfcRefStep st x).currentSection = st.currentSection := by
  unfold rfcRefStep; split <;> split <;> rfl

theorem draftRefStep_currentSection (st : ScanState) (x : Chars) :
    (draftRefStep st x).currentSection = st.currentSection := by
  unfold draftRefStep; split <;> split <;> rfl

theorem rfcRefStep_nonRef_mono (st : ScanState) (x num : Chars)
    (h : num ∈ st.data.extractedElements.nonReferenceSectionRfc) :
    num ∈ (rfcRefStep st x).data.extractedElements.nonReferenceSectionRfc := by
  unfold rfcRefStep
  split <;> split <;> simp_all [List.mem_append]

theorem rfcRefStep_refmap_mono (st : ScanState) (x num : Chars)
    (h : num ∈ st.data.extractedElements.referenceSectionRfc.map (·.value)) :
    num ∈ (rfcRefStep st x).data.extractedElements.referenceSectionRfc.map (·.value) := by
  unfold rfcRefStep
  split <;> split <;> simp_all [List.map_append, List.mem_append]

theorem rfcRefStep_recorded_mono (st : ScanState) (x num : Chars)
    (h : rfcRecordedAnywhere st.data.extractedElements num) :
    rfcRecordedAnywhere (rfcRefStep st x).data.extractedElements num := by
  cases h with
  | inl h => exact .inl (rfcRefStep_nonRef_mono st x num h)
  | inr h => exact .inr (rfcRefStep_refmap_mono st x num h)

theorem rfcRefStep_recorded_self (st : ScanState) (x : Chars) :
    rfcRecordedAnywhere (rfcRefStep st x).data.extractedElements x := by
  unfold rfcRefStep rfcRecordedAnywhere
  split
  · split
    · exact .inl (by assumption)
    · exact .inl (by simp)
  · split
    · next hc => exact .inr (List.mem_of_elem_eq_true hc)
    · exact .inr (by simp)

theorem rfcFold_nonRef_mono (l : List Chars) : ∀ st num,
    num ∈ st.data.extractedElements.nonReferenceSectionRfc →
    num ∈ (l.foldl rfcRefStep st).data.extractedElements.nonReferenceSectionRfc := by
  induction l with
  | nil => exact fun st num h => h
  | cons x xs ih => exact fun st num h => ih _ _ (rfcRefStep_nonRef_mono st x num h)

theorem rfcFold_refmap_mono (l : List Chars) : ∀ st num,
    num ∈ st.data.extractedElements.referenceSectionRfc.map (·.value) →
    num ∈ (l.foldl rfcRefStep st).data.extractedElements.referenceSectionRfc.map (·.value) := by
  induction l with
  | nil => exact fun st num h => h
  | cons x xs ih => exact fun st num h => ih _ _ (rfcRefStep_refmap_mono st x num h)

theorem rfcFold_recorded_mono (l : List Chars) : ∀ st num,
    rfcRecordedAnywhere st.data.extractedElements num →
    rfcRecordedAnywhere (l.foldl rfcRefStep st).data.extractedElements num := by
  induction l with
  | nil => exact fun st num h => h
  | cons x xs ih => exact fun st num h => ih _ _ (rfcRefStep_recorded_mono st x num h)

theorem rfcFold_recorded_of_mem (l : List Chars) : ∀ st num, num ∈ l →
    rfcRecordedAnywhere (l.foldl rfcRefStep st).data.extractedElements num := by
  induction l with
  | nil => intro st num h; cases h
  | cons x xs ih =>
    intro st num h
    rcases List.mem_cons.mp h with rfl | hx
    · exact rfcFold_recorded_mono xs _ _ (rfcRefStep_recorded_self st num)
    · exact ih _ _ hx

theorem rfcRefStep_nonRef_case (st : ScanState) (x : Chars)
    (h : st.currentSection ≠ some .references) :
    x ∈ (rfcRefStep st x).data.extractedElements.nonReferenceSectionRfc ∧
    (rfcRefStep st x).data.extractedElements.referenceSectionRfc =
      st.data.extractedElements.referenceSectionRfc := by
  unfold rfcRefStep
  rw [if_pos h]
  split
  · exact ⟨by assumption, rfl⟩
  · exact ⟨by simp, rfl⟩

theorem rfcRefStep_ref_case (st : ScanState) (x : Chars)
    (h : st.currentSection = some .references) :
    x ∈ (rfcRefStep st x).data.extractedElements.referenceSectionRfc.map (·.value) ∧
    (rfcRefStep st x).data.extractedElements.nonReferenceSectionRfc =
      st.data.extractedElements.nonReferenceSectionRfc := by
  unfold rfcRefStep
  rw [if_neg (by simp [h])]
  split
  · next hc => exact ⟨List.mem_of_elem_eq_true hc, rfl⟩
  · exact ⟨by simp, rfl⟩

theorem rfcFold_nonRef_case (l : List Chars) : ∀ st, st.currentSection ≠ some .references →
    (∀ num ∈ l, num ∈ (l.foldl rfcRefStep st).data.extractedElements.nonReferenceSectionRfc) ∧
    (l.foldl rfcRefStep st).data.extractedElements.referenceSectionRfc =
      st.data.extractedElements.referenceSectionRfc := by
  induction l with
  | nil => exact fun st _ => ⟨fun num h => absurd h (List.not_mem_nil num), rfl⟩
  | cons x xs ih =>
    intro st h
    have hstep := rfcRefStep_nonRef_case st x h
    have hcs : (rfcRefStep st x).currentSection ≠ some .references := by
      rw [rfcRefStep_currentSection]; exact h
    have hrec := ih (rfcRefStep st x) hcs
    refine ⟨fun num hn => ?_, hrec.2.trans hstep.2⟩
    rcases List.mem_cons.mp hn with rfl | hx
    · exact rfcFold_nonRef_mono xs _ _ hstep.1
    · exact hrec.1 _ hx

theorem rfcFold_ref_case (l : List Chars) : ∀ st, st.currentSection = some .references →
    (∀ num ∈ l,
      num ∈ (l.foldl rfcRefStep st).data.extractedElements.referenceSectionRfc.map (·.value)) ∧
    (l.foldl rfcRefStep st).data.extractedElements.nonReferenceSectionRfc =
      st.data.extractedElements.nonReferenceSectionRfc := by
  induction l with
  | nil => exact fun st _ => ⟨fun num h => absurd h (List.not_mem_nil num), rfl⟩
  | cons x xs ih =>
    intro st h
    have hstep := rfcRefStep_ref_case st x h
    have hcs : (rfcRefStep st x).currentSection = some .references := by
      rw [rfcRefStep_currentSection]; exact h
    have hrec := ih (rfcRefStep st x) hcs
    refine ⟨fun num hn => ?_, hrec.2.trans hstep.2⟩
    rcases List.mem_cons.mp hn with rfl | hx
    · exact rfcFold_refmap_mono xs _ _ hstep.1
    · exact hrec.1 _ hx

theorem rfcRefExtract_recorded (st : ScanState) (t num : Chars)
    (h : num ∈ RFC_REFERENCE_RE_numbers t) :
    rfcRecordedAnywhere (rfcRefExtract st t).data.extractedElements num :=
  rfcFold_recorded_of_mem _ st num h

theorem rfcRefExtract_nonRef_case (st : ScanState) (t : Chars)
    (h : st.currentSection ≠ some .references) :
    (∀ num ∈ RFC_REFERENCE_RE_numbers t,
      num ∈ (rfcRefExtract st t).data.extractedElements.nonReferenceSectionRfc) ∧
    (rfcRefExtract st t).data.extractedElements.referenceSectionRfc =
      st.data.extractedElements.referenceSectionRfc :=
  rfcFold_nonRef_case _ st h

theorem rfcRefExtract_ref_case (st : ScanState) (t : Chars)
    (h : st.currentSection = some .references) :
    (∀ num ∈ RFC_REFERENCE_RE_numbers t,
      num ∈ (rfcRefExtract st t).data.extractedElements.referenceSectionRfc.map (·.value)) ∧
    (rfcRefExtract st t).data.extractedElements.nonReferenceSectionRfc =
      st.data.extractedElements.nonReferenceSectionRfc :=
  rfcFold_ref_case _ st h

end Idnits

namespace Idnits

/-! ## The same membership lemmas for the draft-citation fold -/

theorem draftRefStep_nonRef_mono (st : ScanState) (x nm : Chars)
    (h : nm ∈ st.data.extractedElements.nonReferenceSectionDraftReferences) :
    nm ∈ (draftRefStep st x).data.extractedElements.nonReferenceSectionDraftReferences := by
  unfold draftRefStep
  split <;> split <;> simp_all [List.mem_append]

theorem draftRefStep_refmap_mono (st : ScanState) (x nm : Chars)
    (h : nm ∈ st.data.extractedElements.referenceSectionDraftReferences.map (·.value)) :
    nm ∈ (draftRefStep st x).data.extractedElements.referenceSectionDraftReferences.map (·.value) := by
  unfold draftRefStep
  split <;> split <;> simp_all [List.map_append, List.mem_append]

theorem draftRefStep_recorded_mono (st : ScanState) (x nm : Chars)
    (h : draftRecordedAnywhere st.data.extractedElements nm) :
    draftRecordedAnywhere (draftRefStep st x).data.extractedElements nm := by
  cases h with
  | inl h => exact .inl (draftRefStep_nonRef_mono st x nm h)
  | inr h => exact .inr (draftRefStep_refmap_mono st x nm h)

theorem draftRefStep_recorded_self (st : ScanState) (x : Chars) :
    draftRecordedAnywhere (draftRefStep st x).data.extractedElements x := by
  unfold draftRefStep draftRecordedAnywhere
  split
  · split
    · exact .inl (by assumption)
    · exact .inl (by simp)
  · split
    · next hc => exact .inr (List.mem_of_elem_eq_true hc)
    · exact .inr (by simp)

theorem draftFold_nonRef_mono (l : List Chars) : ∀ st nm,
    nm ∈ st.data.extractedElements.nonReferenceSectionDraftReferences →
    nm ∈ (l.foldl draftRefStep st).data.extractedElements.nonReferenceSectionDraftReferences := by
  induction l with
  | nil => exact fun st nm h => h
  | cons x xs ih => exact fun st nm h => ih _ _ (draftRefStep_nonRef_mono st x nm h)

theorem draftFold_refmap_mono (l : List Chars) : ∀ st nm,
    nm ∈ st.data.extractedElements.referenceSectionDraftReferences.map (·.value) →
    nm ∈ (l.foldl draftRefStep st).data.extractedElements.referenceSectionDraftReferences.map (·.value) := by
  induction l with
  | nil => exact fun st nm h => h
  | cons x xs ih => exact fun st nm h => ih _ _ (draftRefStep_refmap_mono st x nm h)

theorem draftFold_recorded_mono (l : List Chars) : ∀ st nm,
    draftRecordedAnywhere st.data.extractedElements nm →
    draftRecordedAnywhere (l.foldl draftRefStep st).data.extractedElements nm := by
  induction l with
  | nil => exact fun st nm h => h
  | cons x xs ih => exact fun st nm h => ih _ _ (draftRefStep_recorded_mono st x nm h)

theorem draftFold_recorded_of_mem (l : List Chars) : ∀ st nm, nm ∈ l →
    draftRecordedAnywhere (l.foldl draftRefStep st).data.extractedElements nm := by
  induction l with
  | nil => intro st nm h; cases h
  | cons x xs ih =>
    intro st nm h
    rcases List.mem_cons.mp h with rfl | hx
    · exact draftFold_recorded_mono xs _ _ (draftRefStep_recorded_self st nm)
    · exact ih _ _ hx

theorem draftRefStep_nonRef_case (st : ScanState) (x : Chars)
    (h : st.currentSection ≠ some .references) :
    x ∈ (draftRefStep st x).data.extractedElements.nonReferenceSectionDraftReferences ∧
    (draftRefStep st x).data.extractedElements.referenceSectionDraftReferences =
      st.data.extractedElements.referenceSectionDraftReferences := by
  unfold draftRefStep
  rw [if_pos h]
  split
  · exact ⟨by assumption, rfl⟩
  · exact ⟨by simp, rfl⟩

theorem draftRefStep_ref_case (st : ScanState) (x : Chars)
    (h : st.currentSection = some .references) :
    x ∈ (draftRefStep st x).data.extractedElements.referenceSectionDraftReferences.map (·.value) ∧
    (draftRefStep st x).data.extractedElements.nonReferenceSectionDraftReferences =
      st.data.extractedElements.nonReferenceSectionDraftReferences := by
  unfold draftRefStep
  rw [if_neg (by simp [h])]
  split
  · next hc => exact ⟨List.mem_of_elem_eq_true hc, rfl⟩
  · exact ⟨by simp, rfl⟩

theorem draftFold_nonRef_case (l : List Chars) : ∀ st, st.currentSection ≠ some .references →
    (∀ nm ∈ l,
      nm ∈ (l.foldl draftRefStep st).data.extractedElements.nonReferenceSectionDraftReferences) ∧
    (l.foldl draftRefStep st).data.extractedElements.referenceSectionDraftReferences =
      st.data.extractedElements.referenceSectionDraftReferences := by
  induction l with
  | nil => exact fun st _ => ⟨fun nm h => absurd h (List.not_mem_nil nm), rfl⟩
  | cons x xs ih =>
    intro st h
    have hstep := draftRefStep_nonRef_case st x h
    have hcs : (draftRefStep st x).currentSection ≠ some .references := by
      rw [draftRefStep_currentSection]; exact h
    have hrec := ih (draftRefStep st x) hcs
    refine ⟨fun nm hn => ?_, hrec.2.trans hstep.2⟩
    rcases List.mem_cons.mp hn with rfl | hx
    · exact draftFold_nonRef_mono xs _ _ hstep.1
    · exact hrec.1 _ hx

theorem draftFold_ref_case (l : List Chars) : ∀ st, st.currentSection = some .references →
    (∀ nm ∈ l,
      nm ∈ (l.foldl draftRefStep st).data.extractedElements.referenceSectionDraftReferences.map (·.value)) ∧
    (l.foldl draftRefStep st).data.extractedElements.nonReferenceSectionDraftReferences =
      st.data.extractedElements.nonReferenceSectionDraftReferences := by
  induction l with
  | nil => exact fun st _ => ⟨fun nm h => absurd h (List.not_mem_nil nm), rfl⟩
  | cons x xs ih =>
    intro st h
    have hstep := draftRefStep_ref_case st x h
    have hcs : (draftRefStep st x).currentSection = some .references := by
      rw [draftRefStep_currentSection]; exact h
    have hrec := ih (draftRefStep st x) hcs
    refine ⟨fun nm hn => ?_, hrec.2.trans hstep.2⟩
    rcases List.mem_cons.mp hn with rfl | hx
    · exact draftFold_refmap_mono xs _ _ hstep.1
    · exact hrec.1 _ hx

theorem draftRefExtract_recorded (st : ScanState) (t nm : Chars)
    (h : nm ∈ NON_RFC_REFERENCE_RE_matches t) :
    draftRecordedAnywhere (draftRefExtract st t).data.extractedElements nm :=
  draftFold_recorded_of_mem _ st nm h

theorem draftRefExtract_nonRef_case (st : ScanState) (t : Chars)
    (h : st.currentSection ≠ some .references) :
    (∀ nm ∈ NON_RFC_REFERENCE_RE_matches t,
      nm ∈ (draftRefExtract st t).data.extractedElements.nonReferenceSectionDraftReferences) ∧
    (draftRefExtract st t).data.extractedElements.referenceSectionDraftReferences =
      st.data.extractedElements.referenceSectionDraftReferences :=
  draftFold_nonRef_case _ st h

theorem draftRefExtract_ref_case (st : ScanState) (t : Chars)
    (h : st.currentSection = some .references) :
    (∀ nm ∈ NON_RFC_REFERENCE_RE_matches t,
      nm ∈ (draftRefExtract st t).data.extractedElements.referenceSectionDraftReferences.map (·.value)) ∧
    (draftRefExtract st t).data.extractedElements.nonReferenceSectionDraftReferences =
      st.data.extractedElements.nonReferenceSectionDraftReferences :=
  draftFold_ref_case _ st h

end Idnits

namespace Idnits

/-! ## Field preservation of the later lexical phases -/

theorem rfcRefExtract_currentSection (st : ScanState) (t : Chars) :
    (rfcRefExtract st t).currentSection = st.currentSection :=
  foldl_proj_eq (fun s => s.currentSection) rfcRefStep rfcRefStep_currentSection _ st

theorem inlineCodeCheck_currentSection (st : ScanState) (l : Chars) :
    (inlineCodeCheck st l).currentSection = st.currentSection := by
  unfold inlineCodeCheck
  split
  · rfl
  · split <;> rfl

theorem inlineCodeCheck_extracted (st : ScanState) (l : Chars) :
    (inlineCodeCheck st l).data.extractedElements = st.data.extractedElements := by
  unfold inlineCodeCheck
  split
  · rfl
  · split <;> rfl

theorem inlineCodeCheck_misspeled (st : ScanState) (l : Chars) :
    (inlineCodeCheck st l).data.possibleIssues.misspeled2119Keywords =
      st.data.possibleIssues.misspeled2119Keywords := by
  unfold inlineCodeCheck
  split
  · rfl
  · split <;> rfl

theorem draftRefExtract_nonRefRfc (st : ScanState) (t : Chars) :
    (draftRefExtract st t).data.extractedElements.nonReferenceSectionRfc =
      st.data.extractedElements.nonReferenceSectionRfc :=
  foldl_proj_eq (fun s => s.data.extractedElements.nonReferenceSectionRfc) draftRefStep
    (fun st x => by unfold draftRefStep; split <;> split <;> rfl) _ st

theorem draftRefExtract_refRfc (st : ScanState) (t : Chars) :
    (draftRefExtract st t).data.extractedElements.referenceSectionRfc =
      st.data.extractedElements.referenceSectionRfc :=
  foldl_proj_eq (fun s => s.data.extractedElements.referenceSectionRfc) draftRefStep
    (fun st x => by unfold draftRefStep; split <;> split <;> rfl) _ st

theorem refFlagsCheck_extracted (st : ScanState) (t : Chars) :
    (refFlagsCheck st t).data.extractedElements = st.data.extractedElements := by
  unfold refFlagsCheck
  split <;> split <;> rfl

theorem keywordsExtract_keywords (st : ScanState) (t : Chars) :
    (keywordsExtract st t).data.extractedElements.keywords2119 =
      st.data.extractedElements.keywords2119 ++
        (KEYWORDS_PATTERN_matches t).map (fun m => ⟨m.2, st.lineIdx⟩) := rfl

theorem keywordsExtract_nonRefRfc (st : ScanState) (t : Chars) :
    (keywordsExtract st t).data.extractedElements.nonReferenceSectionRfc =
      st.data.extractedElements.nonReferenceSectionRfc := rfl

theorem keywordsExtract_refRfc (st : ScanState) (t : Chars) :
    (keywordsExtract st t).data.extractedElements.referenceSectionRfc =
      st.data.extractedElements.referenceSectionRfc := rfl

theorem keywordsExtract_draftNonRef (st : ScanState) (t : Chars) :
    (keywordsExtract st t).data.extractedElements.nonReferenceSectionDraftReferences =
      st.data.extractedElements.nonReferenceSectionDraftReferences := rfl

theorem keywordsExtract_draftRef (st : ScanState) (t : Chars) :
    (keywordsExtract st t).data.extractedElements.referenceSectionDraftReferences =
      st.data.extractedElements.referenceSectionDraftReferences := rfl

theorem invalidExtract_extracted (st : ScanState) (l : Chars) :
    (invalidExtract st l).data.extractedElements = st.data.extractedElements := rfl

theorem invalidExtract_misspeled (st : ScanState) (l : Chars) :
    (invalidExtract st l).data.possibleIssues.misspeled2119Keywords =
      st.data.possibleIssues.misspeled2119Keywords ++
        (INVALID_COMBINATIONS_PATTERN_matches l).map (fun m => ⟨m.2, st.lineIdx, m.1 + 1⟩) := rfl

theorem fqdnExtract_domains (st : ScanState) (t : Chars) :
    (fqdnExtract st t).data.extractedElements.fqdnDomains =
      st.data.extractedElements.fqdnDomains ++ FQDN_RE_domains t := rfl

theorem fqdnExtract_keywords (st : ScanState) (t : Chars) :
    (fqdnExtract st t).data.extractedElements.keywords2119 =
      st.data.extractedElements.keywords2119 := rfl

theorem fqdnExtract_nonRefRfc (st : ScanState) (t : Chars) :
    (fqdnExtract st t).data.extractedElements.nonReferenceSectionRfc =
      st.data.extractedElements.nonReferenceSectionRfc := rfl

theorem fqdnExtract_refRfc (st : ScanState) (t : Chars) :
    (fqdnExtract st t).data.extractedElements.referenceSectionRfc =
      st.data.extractedElements.referenceSectionRfc := rfl

theorem fqdnExtract_draftNonRef (st : ScanState) (t : Chars) :
    (fqdnExtract st t).data.extractedElements.nonReferenceSectionDraftReferences =
      st.data.extractedElements.nonReferenceSectionDraftReferences := rfl

theorem fqdnExtract_draftRef (st : ScanState) (t : Chars) :
    (fqdnExtract st t).data.extractedElements.referenceSectionDraftReferences =
      st.data.extractedElements.referenceSectionDraftReferences := rfl

theorem fqdnExtract_issues (st : ScanState) (t : Chars) :
    (fqdnExtract st t).data.possibleIssues = st.data.possibleIssues := rfl

theorem ipExtract_ipv4 (st : ScanState) (t : Chars) :
    (ipExtract st t).data.extractedElements.ipv4 =
      st.data.extractedElements.ipv4 ++ IPV4_LOOSE_RE_matches t := rfl

theorem ipExtract_ipv6 (st : ScanState) (t : Chars) :
    (ipExtract st t).data.extractedElements.ipv6 =
      st.data.extractedElements.ipv6 ++ IPV6_LOOSE_RE_matches t := rfl

theorem ipExtract_keywords (st : ScanState) (t : Chars) :
    (ipExtract st t).data.extractedElements.keywords2119 =
      st.data.extractedElements.keywords2119 := rfl

theorem ipExtract_nonRefRfc (st : ScanState) (t : Chars) :
    (ipExtract st t).data.extractedElements.nonReferenceSectionRfc =
      st.data.extractedElements.nonReferenceSectionRfc := rfl

theorem ipExtract_refRfc (st : ScanState) (t : Chars) :
    (ipExtract st t).data.extractedElements.referenceSectionRfc =
      st.data.extractedElements.referenceSectionRfc := rfl

theorem ipExtract_draftNonRef (st : ScanState) (t : Chars) :
    (ipExtract st t).data.extractedElements.nonReferenceSectionDraftReferences =
      st.data.extractedElements.nonReferenceSectionDraftReferences := rfl

theorem ipExtract_draftRef (st : ScanState) (t : Chars) :
    (ipExtract st t).data.extractedElements.referenceSectionDraftReferences =
      st.data.extractedElements.referenceSectionDraftReferences := rfl

theorem ipExtract_fqdn (st : ScanState) (t : Chars) :
    (ipExtract st t).data.extractedElements.fqdnDomains =
      st.data.extractedElements.fqdnDomains := rfl

theorem ipExtract_issues (st : ScanState) (t : Chars) :
    (ipExtract st t).data.possibleIssues = st.data.possibleIssues := rfl

theorem structuralPhase_issues (st : ScanState) (line t : Chars) :
    (structuralPhase st line t).1.data.possibleIssues = st.data.possibleIssues :=
  congrArg (fun x => x.2.2.1) (structuralPhase_structFrame st line t)

end Idnits

namespace Idnits

/-! ## Blank lines: the invalid-combination matcher finds nothing on
an all-whitespace raw line (every alternative starts with a
non-whitespace letter) -/

theorem pAltsLit_invalid_ws (s : Chars) (h : ∀ c ∈ s, jsWhitespace c = true) :
    pAltsLit invalidCombinations pAny s = none := by
  cases s with
  | nil => rfl
  | cons c cs =>
    have hc := h c (List.mem_cons_self c cs)
    have hM : ('M' = c) = False := by
      refine eq_false fun he => ?_
      rw [← he] at hc
      exact absurd hc (by decide)
    have hS : ('S' = c) = False := by
      refine eq_false fun he => ?_
      rw [← he] at hc
      exact absurd hc (by decide)
    have hn : ('n' = c) = False := by
      refine eq_false fun he => ?_
      rw [← he] at hc
      exact absurd hc (by decide)
    have hN : ('N' = c) = False := by
      refine eq_false fun he => ?_
      rw [← he] at hc
      exact absurd hc (by decide)
    have hinv : invalidCombinations =
        [['M','U','S','T',' ','n','o','t'],
         ['S','H','A','L','L',' ','n','o','t'],
         ['S','H','O','U','L','D',' ','n','o','t'],
         ['n','o','t',' ','R','E','C','O','M','M','E','N','D','E','D'],
         ['M','A','Y',' ','N','O','T'],
         ['N','O','T',' ','R','E','Q','U','I','R','E','D'],
         ['N','O','T',' ','O','P','T','I','O','N','A','L']] := by decide
    rw [hinv]
    simp [pAltsLit, pLit, hM, hS, hn, hN]

theorem matchAllGo_invalid_ws : ∀ (fuel p : Nat) (s : Chars),
    (∀ c ∈ s, jsWhitespace c = true) →
    matchAllGo (pAltsLit invalidCombinations pAny) fuel p s = [] := by
  intro fuel
  induction fuel with
  | zero => intro p s h; rfl
  | succ n ih =>
    intro p s h
    cases s with
    | nil => rfl
    | cons c cs =>
      unfold matchAllGo
      rw [pAltsLit_invalid_ws _ h]
      exact ih (p + 1) cs fun x hx => h x (List.mem_cons_of_mem c hx)

theorem jsTrim_nil_all_ws (s : Chars) (h : jsTrim s = []) :
    ∀ c ∈ s, jsWhitespace c = true := by
  unfold jsTrim at h
  rw [List.reverse_eq_nil_iff, List.dropWhile_eq_nil_iff] at h
  intro c hc
  have hsplit : c ∈ s.takeWhile jsWhitespace ++ s.dropWhile jsWhitespace := by
    rw [List.takeWhile_append_dropWhile]; exact hc
  rcases List.mem_append.mp hsplit with h1 | h2
  · exact List.mem_takeWhile_imp h1
  · exact h _ (List.mem_reverse.mpr h2)

theorem invalid_matches_ws_nil (line : Chars) (h : jsTrim line = []) :
    INVALID_COMBINATIONS_PATTERN_matches line = [] :=
  matchAllGo_invalid_ws (line.length + 1) 0 line (jsTrim_nil_all_ws line h)

end Idnits

namespace Idnits

/-! ## The RFC fold leaves the draft lists untouched -/

theorem rfcRefExtract_draftNonRef (st : ScanState) (t : Chars) :
    (rfcRefExtract st t).data.extractedElements.nonReferenceSectionDraftReferences =
      st.data.extractedElements.nonReferenceSectionDraftReferences :=
  foldl_proj_eq (fun s => s.data.extractedElements.nonReferenceSectionDraftReferences) rfcRefStep
    (fun st x => by unfold rfcRefStep; split <;> split <;> rfl) _ st

theorem rfcRefExtract_draftRef (st : ScanState) (t : Chars) :
    (rfcRefExtract st t).data.extractedElements.referenceSectionDraftReferences =
      st.data.extractedElements.referenceSectionDraftReferences :=
  foldl_proj_eq (fun s => s.data.extractedElements.referenceSectionDraftReferences) rfcRefStep
    (fun st x => by unfold rfcRefStep; split <;> split <;> rfl) _ st

/-! ## Per-line lexical extraction: every token matched on a
non-form-feed line is recorded by the scan (source lines 201-306) -/

theorem stepLine_extraction_total (st : ScanState) (line : Chars)
    (hff : containsFF line = false) :
    (∀ num ∈ RFC_REFERENCE_RE_numbers (jsTrim line),
        rfcRecordedAnywhere (stepLine st line).1.data.extractedElements num) ∧
    (∀ nm ∈ NON_RFC_REFERENCE_RE_matches (jsTrim line),
        draftRecordedAnywhere (stepLine st line).1.data.extractedElements nm) ∧
    (∀ m ∈ KEYWORDS_PATTERN_matches (jsTrim line),
        (⟨m.2, st.lineIdx + 1⟩ : KeywordHit) ∈
          (stepLine st line).1.data.extractedElements.keywords2119) ∧
    (∀ m ∈ INVALID_COMBINATIONS_PATTERN_matches line,
        (⟨m.2, st.lineIdx + 1, m.1 + 1⟩ : MisspellIssue) ∈
          (stepLine st line).1.data.possibleIssues.misspeled2119Keywords) ∧
    (∀ d ∈ FQDN_RE_domains (jsTrim line),
        d ∈ (stepLine st line).1.data.extractedElements.fqdnDomains) ∧
    (∀ a ∈ IPV4_LOOSE_RE_matches (jsTrim line),
        a ∈ (stepLine st line).1.data.extractedElements.ipv4) ∧
    (∀ a ∈ IPV6_LOOSE_RE_matches (jsTrim line),
        a ∈ (stepLine st line).1.data.extractedElements.ipv6) := by
  unfold stepLine
  dsimp only
  split
  · next hcf => exact absurd hcf (by simp [hff])
  · split
    · next hbl =>
      have htr : jsTrim line = [] := by simpa using hbl
      have h0 : RFC_REFERENCE_RE_numbers ([] : Chars) = [] := rfl
      have h1 : NON_RFC_REFERENCE_RE_matches ([] : Chars) = [] := rfl
      have h2 : KEYWORDS_PATTERN_matches ([] : Chars) = [] := rfl
      have h3 : FQDN_RE_domains ([] : Chars) = [] := rfl
      have h4 : IPV4_LOOSE_RE_matches ([] : Chars) = [] := rfl
      have h5 : IPV6_LOOSE_RE_matches ([] : Chars) = [] := rfl
      refine ⟨?_, ?_, ?_, ?_, ?_, ?_, ?_⟩
      · intro num hnum; rw [htr, h0] at hnum; exact absurd hnum (List.not_mem_nil num)
      · intro nm hnm; rw [htr, h1] at hnm; exact absurd hnm (List.not_mem_nil nm)
      · intro m hm; rw [htr, h2] at hm; exact absurd hm (List.not_mem_nil m)
      · intro m hm
        rw [invalid_matches_ws_nil line htr] at hm
        exact absurd hm (List.not_mem_nil m)
      · intro d hd; rw [htr, h3] at hd; exact absurd hd (List.not_mem_nil d)
      · intro a ha; rw [htr, h4] at ha; exact absurd ha (List.not_mem_nil a)
      · intro a ha; rw [htr, h5] at ha; exact absurd ha (List.not_mem_nil a)
    · refine ⟨?_, ?_, ?_, ?_, ?_, ?_, ?_⟩
      · intro num hnum
        unfold rfcRecordedAnywhere
        simp only [structuralPhase_extracted, ipExtract_nonRefRfc, ipExtract_refRfc,
          fqdnExtract_nonRefRfc, fqdnExtract_refRfc, invalidExtract_extracted,
          keywordsExtract_nonRefRfc, keywordsExtract_refRfc, refFlagsCheck_extracted,
          draftRefExtract_nonRefRfc, draftRefExtract_refRfc]
        exact rfcRefExtract_recorded _ _ num hnum
      · intro nm hnm
        unfold draftRecordedAnywhere
        simp only [structuralPhase_extracted, ipExtract_draftNonRef, ipExtract_draftRef,
          fqdnExtract_draftNonRef, fqdnExtract_draftRef, invalidExtract_extracted,
          keywordsExtract_draftNonRef, keywordsExtract_draftRef, refFlagsCheck_extracted]
        exact draftRefExtract_recorded _ _ nm hnm
      · intro m hm
        simp only [structuralPhase_extracted, ipExtract_keywords, fqdnExtract_keywords,
          invalidExtract_extracted, keywordsExtract_keywords, refFlagsCheck_lineIdx,
          draftRefExtract_lineIdx, rfcRefExtract_lineIdx, inlineCodeCheck_lineIdx]
        split <;> split <;> exact List.mem_append_right _ (List.mem_map_of_mem _ hm)
      · intro m hm
        simp only [structuralPhase_issues, ipExtract_issues, fqdnExtract_issues,
          invalidExtract_misspeled, keywordsExtract_lineIdx, refFlagsCheck_lineIdx,
          draftRefExtract_lineIdx, rfcRefExtract_lineIdx, inlineCodeCheck_lineIdx]
        split <;> split <;> exact List.mem_append_right _ (List.mem_map_of_mem _ hm)
      · intro d hd
        simp only [structuralPhase_extracted, ipExtract_fqdn, fqdnExtract_domains]
        exact List.mem_append_right _ hd
      · intro a ha
        simp only [structuralPhase_extracted, ipExtract_ipv4]
        exact List.mem_append_right _ ha
      · intro a ha
        simp only [structuralPhase_extracted, ipExtract_ipv6]
        exact List.mem_append_right _ ha

/-! ## The citation fold classifies by the section state in force
before the structural phase of the same line (source lines 237-269
run before lines 465-480) -/

theorem stepLine_extraction_order (st : ScanState) (line : Chars)
    (hff : containsFF line = false) :
    (st.currentSection ≠ some .references →
      (∀ num ∈ RFC_REFERENCE_RE_numbers (jsTrim line),
        num ∈ (stepLine st line).1.data.extractedElements.nonReferenceSectionRfc) ∧
      (stepLine st line).1.data.extractedElements.referenceSectionRfc =
        st.data.extractedElements.referenceSectionRfc ∧
      (∀ nm ∈ NON_RFC_REFERENCE_RE_matches (jsTrim line),
        nm ∈ (stepLine st line).1.data.extractedElements.nonReferenceSectionDraftReferences) ∧
      (stepLine st line).1.data.extractedElements.referenceSectionDraftReferences =
        st.data.extractedElements.referenceSectionDraftReferences) ∧
    (st.currentSection = some .references →
      (∀ num ∈ RFC_REFERENCE_RE_numbers (jsTrim line),
        num ∈ (stepLine st line).1.data.extractedElements.referenceSectionRfc.map (·.value)) ∧
      (stepLine st line).1.data.extractedElements.nonReferenceSectionRfc =
        st.data.extractedElements.nonReferenceSectionRfc ∧
      (∀ nm ∈ NON_RFC_REFERENCE_RE_matches (jsTrim line),
        nm ∈ (stepLine st line).1.data.extractedElements.referenceSectionDraftReferences.map (·.value)) ∧
      (stepLine st line).1.data.extractedElements.nonReferenceSectionDraftReferences =
        st.data.extractedElements.nonReferenceSectionDraftReferences) := by
  unfold stepLine
  dsimp only
  split
  · next hcf => exact absurd hcf (by simp [hff])
  · split
    · next hbl =>
      have htr : jsTrim line = [] := by simpa using hbl
      have h0 : RFC_REFERENCE_RE_numbers ([] : Chars) = [] := rfl
      have h1 : NON_RFC_REFERENCE_RE_matches ([] : Chars) = [] := rfl
      constructor
      · intro _
        refine ⟨?_, rfl, ?_, rfl⟩
        · intro num hnum; rw [htr, h0] at hnum; exact absurd hnum (List.not_mem_nil num)
        · intro nm hnm; rw [htr, h1] at hnm; exact absurd hnm (List.not_mem_nil nm)
      · intro _
        refine ⟨?_, rfl, ?_, rfl⟩
        · intro num hnum; rw [htr, h0] at hnum; exact absurd hnum (List.not_mem_nil num)
        · intro nm hnm; rw [htr, h1] at hnm; exact absurd hnm (List.not_mem_nil nm)
    · constructor
      · intro hcs
        refine ⟨?_, ?_, ?_, ?_⟩
        · simp only [structuralPhase_extracted, ipExtract_nonRefRfc, fqdnExtract_nonRefRfc,
            invalidExtract_extracted, keywordsExtract_nonRefRfc, refFlagsCheck_extracted,
            draftRefExtract_nonRefRfc]
          intro num hnum
          split <;> split <;>
            exact (rfcRefExtract_nonRef_case _ _
              (by rw [inlineCodeCheck_currentSection]; exact hcs)).1 num hnum
        · simp only [structuralPhase_extracted, ipExtract_refRfc, fqdnExtract_refRfc,
            invalidExtract_extracted, keywordsExtract_refRfc, refFlagsCheck_extracted,
            draftRefExtract_refRfc]
          split <;> split <;>
            rw [(rfcRefExtract_nonRef_case _ _
              (by rw [inlineCodeCheck_currentSection]; exact hcs)).2, inlineCodeCheck_extracted]
        · simp only [structuralPhase_extracted, ipExtract_draftNonRef, fqdnExtract_draftNonRef,
            invalidExtract_extracted, keywordsExtract_draftNonRef, refFlagsCheck_extracted]
          intro nm hnm
          split <;> split <;>
            exact (draftRefExtract_nonRef_case _ _
              (by rw [rfcRefExtract_currentSection, inlineCodeCheck_currentSection];
                  exact hcs)).1 nm hnm
        · simp only [structuralPhase_extracted, ipExtract_draftRef, fqdnExtract_draftRef,
            invalidExtract_extracted, keywordsExtract_draftRef, refFlagsCheck_extracted]
          split <;> split <;>
            rw [(draftRefExtract_nonRef_case _ _
              (by rw [rfcRefExtract_currentSection, inlineCodeCheck_currentSection];
                  exact hcs)).2, rfcRefExtract_draftRef, inlineCodeCheck_extracted]
      · intro hcs
        refine ⟨?_, ?_, ?_, ?_⟩
        · simp only [structuralPhase_extracted, ipExtract_refRfc, fqdnExtract_refRfc,
            invalidExtract_extracted, keywordsExtract_refRfc, refFlagsCheck_extracted,
            draftRefExtract_refRfc]
          intro num hnum
          split <;> split <;>
            exact (rfcRefExtract_ref_case _ _
              (by rw [inlineCodeCheck_currentSection]; exact hcs)).1 num hnum
        · simp only [structuralPhase_extracted, ipExtract_nonRefRfc, fqdnExtract_nonRefRfc,
            invalidExtract_extracted, keywordsExtract_nonRefRfc, refFlagsCheck_extracted,
            draftRefExtract_nonRefRfc]
          split <;> split <;>
            rw [(rfcRefExtract_ref_case _ _
              (by rw [inlineCodeCheck_currentSection]; exact hcs)).2, inlineCodeCheck_extracted]
        · simp only [structuralPhase_extracted, ipExtract_draftRef, fqdnExtract_draftRef,
            invalidExtract_extracted, keywordsExtract_draftRef, refFlagsCheck_extracted]
          intro nm hnm
          split <;> split <;>
            exact (draftRefExtract_ref_case _ _
              (by rw [rfcRefExtract_currentSection, inlineCodeCheck_currentSection];
                  exact hcs)).1 nm hnm
        · simp only [structuralPhase_extracted, ipExtract_draftNonRef, fqdnExtract_draftNonRef,
            invalidExtract_extracted, keywordsExtract_draftNonRef, refFlagsCheck_extracted]
          split <;> split <;>
            rw [(draftRefExtract_ref_case _ _
              (by rw [rfcRefExtract_currentSection, inlineCodeCheck_currentSection];
                  exact hcs)).2, rfcRefExtract_draftNonRef, inlineCodeCheck_extracted]

end Idnits

namespace Idnits

/-! ## Character-class facts for the TOC versus section-title
separation: ASCII lowercasing never turns a non-digit into a digit -/

theorem charOfNat_toNat (m : Nat) (h : m < 0xd800) : (Char.ofNat m).toNat = m := by
  unfold Char.ofNat
  rw [dif_pos (Or.inl h)]
  rfl

theorem lowerChar_of_digit (c : Char) (h : isDigit c = true) : lowerChar c = c := by
  have hd : ('0' ≤ c ∧ c ≤ '9') := of_decide_eq_true h
  have h9 : c.toNat ≤ 57 := hd.2
  unfold lowerChar
  rw [if_neg]
  rintro ⟨h1, -⟩
  have hA : 65 ≤ c.toNat := h1
  omega

theorem lowerChar_not_digit (c : Char) (h : isDigit c = false) :
    isDigit (lowerChar c) = false := by
  unfold lowerChar
  split
  · next hZ =>
    have hA : 65 ≤ c.toNat := hZ.1
    have hZn : c.toNat ≤ 90 := hZ.2
    have hval : (Char.ofNat (c.toNat + 32)).toNat = c.toNat + 32 :=
      charOfNat_toNat _ (by omega)
    unfold isDigit
    refine decide_eq_false ?_
    rintro ⟨-, h9⟩
    have h57 : (Char.ofNat (c.toNat + 32)).toNat ≤ 57 := h9
    omega
  · exact h

theorem ciEq_not_digit (l c : Char) (hl : isDigit l = false) (h : ciEq l c = true) :
    isDigit c = false := by
  have hlc : lowerChar l = lowerChar c := of_decide_eq_true h
  by_contra hc
  rw [Bool.not_eq_false] at hc
  rw [lowerChar_of_digit c hc] at hlc
  have hnd := lowerChar_not_digit l hl
  rw [hlc] at hnd
  rw [hnd] at hc
  exact Bool.false_ne_true hc

/-! ## The last-character discipline of the CPS matchers -/

theorem lastIsNonDigit_cons (c : Char) (s : Chars) (h : lastIsNonDigit s) :
    lastIsNonDigit (c :: s) := by
  obtain ⟨d, t, hrev, hd⟩ := h
  exact ⟨d, t ++ [c], by rw [List.reverse_cons, hrev]; rfl, hd⟩

theorem lastIsNonDigit_single (c : Char) (h : isDigit c = false) :
    lastIsNonDigit [c] := ⟨c, [], rfl, h⟩

theorem lastIsNonDigit_of_cons (l : Char) (ls : Chars) (h : lastIsNonDigit (l :: ls))
    (hne : ls ≠ []) : lastIsNonDigit ls := by
  obtain ⟨d, t, hrev, hd⟩ := h
  rw [List.reverse_cons] at hrev
  cases hls : ls.reverse with
  | nil => exact absurd (List.reverse_eq_nil_iff.mp hls) hne
  | cons d2 t2 =>
    rw [hls, List.cons_append] at hrev
    injection hrev with h1 h2
    exact ⟨d2, t2, hls, by rw [h1]; exact hd⟩

theorem lastIsNonDigit_mk (s : Chars) (c : Char) (h1 : s.getLast? = some c)
    (h2 : isDigit c = false) : lastIsNonDigit s := by
  cases hs : s.reverse with
  | nil =>
    rw [List.reverse_eq_nil_iff] at hs
    subst hs
    cases h1
  | cons d t =>
    refine ⟨d, t, hs, ?_⟩
    have hh : s.getLast? = some d := by
      rw [← List.head?_reverse, hs]
      rfl
    rw [h1] at hh
    injection hh with h3
    rw [← h3]
    exact h2

theorem orElse_some_cases {a b : Option Chars} {v : Chars} (h : (a <|> b) = some v) :
    a = some v ∨ b = some v := by
  cases a with
  | some x => exact .inl h
  | none => exact .inr h

theorem mlnd_to_mlnde {m : Chars → Option Chars} (h : MatchLastNonDigit m) :
    MatchLastNonDigitOrEmpty m :=
  fun s r hs => .inr (h s r hs)

theorem pEnd_mlnde : MatchLastNonDigitOrEmpty pEnd := by
  intro s r h
  cases s with
  | nil => exact .inl rfl
  | cons c cs => cases h

theorem pLit_mlnd_strict (lit : Chars) (k : Chars → Option Chars)
    (hk : MatchLastNonDigit k) : MatchLastNonDigit (pLit lit k) := by
  induction lit with
  | nil => exact hk
  | cons l ls ih =>
    intro s r h
    cases s with
    | nil => cases h
    | cons c cs =>
      unfold pLit at h
      split at h
      · exact lastIsNonDigit_cons c cs (ih cs r h)
      · cases h

theorem pLitCI_mlnd_strict (lit : Chars) (k : Chars → Option Chars)
    (hk : MatchLastNonDigit k) : MatchLastNonDigit (pLitCI lit k) := by
  induction lit with
  | nil => exact hk
  | cons l ls ih =>
    intro s r h
    cases s with
    | nil => cases h
    | cons c cs =>
      unfold pLitCI at h
      split at h
      · exact lastIsNonDigit_cons c cs (ih cs r h)
      · cases h

theorem pLit_mlnd (lit : Chars) (hlit : lastIsNonDigit lit) (k : Chars → Option Chars)
    (hk : MatchLastNonDigitOrEmpty k) : MatchLastNonDigit (pLit lit k) := by
  induction lit with
  | nil =>
    obtain ⟨d, t, hrev, -⟩ := hlit
    have hrev2 : ([] : Chars) = d :: t := hrev
    cases hrev2
  | cons l ls ih =>
    intro s r h
    cases s with
    | nil => cases h
    | cons c cs =>
      unfold pLit at h
      split at h
      · next hlc =>
        cases ls with
        | nil =>
          rcases hk cs r h with rfl | hlast
          · exact hlc ▸ hlit
          · exact lastIsNonDigit_cons c cs hlast
        | cons l2 ls2 =>
          exact lastIsNonDigit_cons c cs
            (ih (lastIsNonDigit_of_cons l (l2 :: ls2) hlit (List.cons_ne_nil l2 ls2)) cs r h)
      · cases h

theorem pLitCI_mlnd (lit : Chars) (hlit : lastIsNonDigit lit) (k : Chars → Option Chars)
    (hk : MatchLastNonDigitOrEmpty k) : MatchLastNonDigit (pLitCI lit k) := by
  induction lit with
  | nil =>
    obtain ⟨d, t, hrev, -⟩ := hlit
    have hrev2 : ([] : Chars) = d :: t := hrev
    cases hrev2
  | cons l ls ih =>
    intro s r h
    cases s with
    | nil => cases h
    | cons c cs =>
      unfold pLitCI at h
      split at h
      · next hlc =>
        cases ls with
        | nil =>
          rcases hk cs r h with rfl | hlast
          · obtain ⟨d, t, hrev, hd⟩ := hlit
            have hrev2 : [l] = d :: t := hrev
            injection hrev2 with h1 h2
            exact lastIsNonDigit_single c (ciEq_not_digit l c (by rw [h1]; exact hd) hlc)
          · exact lastIsNonDigit_cons c cs hlast
        | cons l2 ls2 =>
          exact lastIsNonDigit_cons c cs
            (ih (lastIsNonDigit_of_cons l (l2 :: ls2) hlit (List.cons_ne_nil l2 ls2)) cs r h)
      · cases h

theorem pOne_mlnd_strict (cls : Char → Bool) (k : Chars → Option Chars)
    (hk : MatchLastNonDigit k) : MatchLastNonDigit (pOne cls k) := by
  intro s r h
  cases s with
  | nil => cases h
  | cons c cs =>
    simp only [pOne] at h
    split at h
    · exact lastIsNonDigit_cons c cs (hk cs r h)
    · cases h

theorem pStar_mlnd (cls : Char → Bool) (k : Chars → Option Chars)
    (hk : MatchLastNonDigit k) : MatchLastNonDigit (pStar cls k) := by
  intro s
  induction s with
  | nil => exact fun r h => hk [] r h
  | cons c cs ih =>
    intro r h
    simp only [pStar] at h
    rcases orElse_some_cases h with h1 | h2
    · split at h1
      · exact lastIsNonDigit_cons c cs (ih r h1)
      · cases h1
    · exact hk _ r h2

theorem pPlus_mlnd (cls : Char → Bool) (k : Chars → Option Chars)
    (hk : MatchLastNonDigit k) : MatchLastNonDigit (pPlus cls k) := by
  intro s r h
  cases s with
  | nil => cases h
  | cons c cs =>
    simp only [pPlus] at h
    split at h
    · exact lastIsNonDigit_cons c cs (pStar_mlnd cls k hk cs r h)
    · cases h

theorem pOpt_mlnd (piece : (Chars → Option Chars) → Chars → Option Chars)
    (k : Chars → Option Chars) (hp : MatchLastNonDigit (piece k))
    (hk : MatchLastNonDigit k) : MatchLastNonDigit (pOpt piece k) := by
  intro s r h
  rcases orElse_some_cases h with h1 | h2
  · exact hp s r h1
  · exact hk s r h2

theorem pOpt_mlnde (piece : (Chars → Option Chars) → Chars → Option Chars)
    (k : Chars → Option Chars) (hp : MatchLastNonDigitOrEmpty (piece k))
    (hk : MatchLastNonDigitOrEmpty k) : MatchLastNonDigitOrEmpty (pOpt piece k) := by
  intro s r h
  rcases orElse_some_cases h with h1 | h2
  · exact hp s r h1
  · exact hk s r h2

end Idnits

namespace Idnits

/-! ## Every section-title matcher accepts only lines ending in a
non-digit, while a TOC line ends in a digit -/

theorem isSome_last {M : Chars → Option Chars} (hM : MatchLastNonDigit M) (s : Chars)
    (h : (M s).isSome = true) : lastIsNonDigit s := by
  obtain ⟨r, hr⟩ := Option.isSome_iff_exists.mp h
  exact hM s r hr

theorem pAuthorOrEditor_mlnd (k : Chars → Option Chars) (hk : MatchLastNonDigitOrEmpty k) :
    MatchLastNonDigit (pAuthorOrEditor k) := by
  intro s r h
  unfold pAuthorOrEditor at h
  rcases orElse_some_cases h with h1 | h2
  · exact pLitCI_mlnd _ (lastIsNonDigit_mk _ 'r' (by decide) (by decide)) k hk s r h1
  · exact pLitCI_mlnd _ (lastIsNonDigit_mk _ 'r' (by decide) (by decide)) k hk s r h2

theorem AUTHORS_OR_EDITORS_ADDRESSES_last (s : Chars)
    (h : AUTHORS_OR_EDITORS_ADDRESSES_RE s = true) : lastIsNonDigit s := by
  unfold AUTHORS_OR_EDITORS_ADDRESSES_RE at h
  refine isSome_last ?_ s h
  have hK0 : MatchLastNonDigit (pLitCI " addresses".toList pEnd) :=
    pLitCI_mlnd _ (lastIsNonDigit_mk _ 's' (by decide) (by decide)) pEnd pEnd_mlnde
  have hK1 : MatchLastNonDigit (pOne isAuthorQuote (pLitCI " addresses".toList pEnd)) :=
    pOne_mlnd_strict _ _ hK0
  exact pAuthorOrEditor_mlnd _
    (mlnd_to_mlnde (pOpt_mlnd _ _ (pLitCI_mlnd_strict ['s'] _ hK1) hK1))

theorem AUTHOR_INFORMATION_last (s : Chars)
    (h : AUTHOR_INFORMATION_RE s = true) : lastIsNonDigit s := by
  unfold AUTHOR_INFORMATION_RE at h
  refine isSome_last ?_ s h
  exact pStar_mlnd _ _ (pStar_mlnd _ _
    (pLitCI_mlnd _ (lastIsNonDigit_mk _ 'n' (by decide) (by decide)) pEnd pEnd_mlnde))

theorem CONTACT_INFORMATION_last (s : Chars)
    (h : CONTACT_INFORMATION_RE s = true) : lastIsNonDigit s := by
  unfold CONTACT_INFORMATION_RE at h
  refine isSome_last ?_ s h
  exact pStar_mlnd _ _ (pStar_mlnd _ _
    (pLitCI_mlnd _ (lastIsNonDigit_mk _ 'n' (by decide) (by decide)) pEnd pEnd_mlnde))

theorem AUTHOR_CONTACT_INFORMATION_last (s : Chars)
    (h : AUTHOR_CONTACT_INFORMATION_RE s = true) : lastIsNonDigit s := by
  unfold AUTHOR_CONTACT_INFORMATION_RE at h
  refine isSome_last ?_ s h
  have hK2 : MatchLastNonDigit (pPlus jsWhitespace (pLitCI "contact information".toList pEnd)) :=
    pPlus_mlnd _ _ (pLitCI_mlnd _ (lastIsNonDigit_mk _ 'n' (by decide) (by decide)) pEnd pEnd_mlnde)
  refine pStar_mlnd _ _ (pStar_mlnd _ _ (pAuthorOrEditor_mlnd _
    (mlnd_to_mlnde (pOpt_mlnd _ _ ?_ hK2))))
  intro t r2 hm
  rcases orElse_some_cases hm with h1 | h2
  · exact pOne_mlnd_strict _ _ (pOpt_mlnd _ _ (pLitCI_mlnd_strict ['s'] _ hK2) hK2) t r2 h1
  · exact pLitCI_mlnd_strict ['s'] _ hK2 t r2 h2

theorem AUTHOR_EDITORS_last (s : Chars)
    (h : AUTHOR_EDITORS_RE s = true) : lastIsNonDigit s := by
  unfold AUTHOR_EDITORS_RE at h
  refine isSome_last ?_ s h
  have hK3 : MatchLastNonDigitOrEmpty (pOpt (pLit [':']) pEnd) :=
    pOpt_mlnde _ _
      (mlnd_to_mlnde (pLit_mlnd [':'] (lastIsNonDigit_mk _ ':' (by decide) (by decide)) pEnd pEnd_mlnde))
      pEnd_mlnde
  have hK : MatchLastNonDigitOrEmpty (pOpt (pLitCI ['s']) (pOpt (pLit [':']) pEnd)) :=
    pOpt_mlnde _ _
      (mlnd_to_mlnde (pLitCI_mlnd ['s'] (lastIsNonDigit_mk _ 's' (by decide) (by decide)) _ hK3))
      hK3
  exact pStar_mlnd _ _ (pStar_mlnd _ _ (pAuthorOrEditor_mlnd _ hK))

theorem AUTHOR_SECTION_RE_last (s : Chars)
    (h : AUTHOR_SECTION_RE s = true) : lastIsNonDigit s := by
  unfold AUTHOR_SECTION_RE at h
  rcases of_decide_eq_true h with h3 | h3 | h3 | h3 | h3
  · exact AUTHORS_OR_EDITORS_ADDRESSES_last s h3
  · exact AUTHOR_INFORMATION_last s h3
  · exact AUTHOR_CONTACT_INFORMATION_last s h3
  · exact CONTACT_INFORMATION_last s h3
  · exact AUTHOR_EDITORS_last s h3

theorem titleCont_mlnd (titles : List Chars) (ht : ∀ t ∈ titles, lastIsNonDigit t) :
    MatchLastNonDigit
      (fun rest => if titles.any (fun t => rest.map lowerChar = t) then some [] else none) := by
  intro s r h
  dsimp only at h
  split at h
  · next hany =>
    obtain ⟨t, htl, heq⟩ := List.any_eq_true.mp hany
    have heq2 : s.map lowerChar = t := of_decide_eq_true heq
    obtain ⟨d, t2, hrev, hd⟩ := ht t htl
    have hsrev : s.reverse.map lowerChar = d :: t2 := by
      rw [List.map_reverse, heq2, hrev]
    cases hs : s.reverse with
    | nil => rw [hs] at hsrev; cases hsrev
    | cons c cs =>
      rw [hs] at hsrev
      injection hsrev with h1 h2
      refine ⟨c, cs, hs, ?_⟩
      by_contra hc
      rw [Bool.not_eq_false] at hc
      rw [lowerChar_of_digit c hc] at h1
      rw [← h1] at hd
      rw [hd] at hc
      exact Bool.false_ne_true hc
  · cases h

theorem numberedTitleRe_last (titles : List Chars) (ht : ∀ t ∈ titles, lastIsNonDigit t)
    (s : Chars) (h : numberedTitleRe titles s = true) : lastIsNonDigit s := by
  unfold numberedTitleRe at h
  refine isSome_last ?_ s h
  exact pPlus_mlnd _ _ (pLit_mlnd_strict _ _ (pPlus_mlnd _ _ (titleCont_mlnd titles ht)))

theorem TOC_last_digit (s : Chars) (h : TOC_PATTERN s = true) :
    ∃ c t, s.reverse = c :: t ∧ isDigit c = true := by
  unfold TOC_PATTERN at h
  cases hs : s.reverse with
  | nil =>
    rw [hs] at h
    simp [pPlus] at h
  | cons c cs =>
    rw [hs] at h
    refine ⟨c, cs, rfl, ?_⟩
    cases hd : isDigit c with
    | true => rfl
    | false =>
      simp only [pPlus] at h
      rw [hd] at h
      simp at h

theorem findSectionMatch_none_of_TOC (s : Chars) (h : TOC_PATTERN s = true) :
    findSectionMatch s = none := by
  obtain ⟨c, t, hrev, hdig⟩ := TOC_last_digit s h
  have hnot : ∀ m : Chars → Bool, (∀ s2, m s2 = true → lastIsNonDigit s2) → m s = false := by
    intro m hm
    cases hms : m s with
    | false => rfl
    | true =>
      obtain ⟨d, t2, hrev2, hd2⟩ := hm s hms
      rw [hrev] at hrev2
      injection hrev2 with h1 h2
      rw [← h1] at hd2
      rw [hdig] at hd2
      cases hd2
  have hsingle : ∀ (w : Chars) (c : Char), w.getLast? = some c → isDigit c = false →
      ∀ t2 ∈ [w], lastIsNonDigit t2 := by
    intro w c hw hc t2 ht2
    rcases List.mem_cons.mp ht2 with rfl | ht2
    · exact lastIsNonDigit_mk _ c hw hc
    · exact absurd ht2 (List.not_mem_nil t2)
  have htitles1 : ∀ t2 ∈ ["introduction".toList, "overview".toList, "background".toList],
      lastIsNonDigit t2 := by
    intro t2 ht2
    rcases List.mem_cons.mp ht2 with rfl | ht2
    · exact lastIsNonDigit_mk _ 'n' (by decide) (by decide)
    rcases List.mem_cons.mp ht2 with rfl | ht2
    · exact lastIsNonDigit_mk _ 'w' (by decide) (by decide)
    rcases List.mem_cons.mp ht2 with rfl | ht2
    · exact lastIsNonDigit_mk _ 'd' (by decide) (by decide)
    exact absurd ht2 (List.not_mem_nil t2)
  have h1 := hnot _ (numberedTitleRe_last _ htitles1)
  have h2 := hnot _ (numberedTitleRe_last ["security considerations".toList]
    (hsingle _ 's' (by decide) (by decide)))
  have h3 := hnot _ AUTHOR_SECTION_RE_last
  have h4 := hnot _ (numberedTitleRe_last ["references".toList]
    (hsingle _ 's' (by decide) (by decide)))
  have h5 := hnot _ (numberedTitleRe_last ["iana considerations".toList]
    (hsingle _ 's' (by decide) (by decide)))
  unfold findSectionMatch sectionMatchers
  simp only [List.find?, h1, h2, h3, h4, h5]
  rfl

end Idnits

namespace Idnits

/-! ## A TOC line never sets a section marker start -/

theorem inlineCodeCheck_markers (st : ScanState) (l : Chars) :
    (inlineCodeCheck st l).markers = st.markers :=
  congrArg (fun x => x.2.2.1) (inlineCodeCheck_lexFrame st l)

theorem rfcRefExtract_markers (st : ScanState) (t : Chars) :
    (rfcRefExtract st t).markers = st.markers :=
  congrArg (fun x => x.2.2.1) (rfcRefExtract_lexFrame st t)

theorem draftRefExtract_markers (st : ScanState) (t : Chars) :
    (draftRefExtract st t).markers = st.markers :=
  congrArg (fun x => x.2.2.1) (draftRefExtract_lexFrame st t)

theorem refFlagsCheck_markers (st : ScanState) (t : Chars) :
    (refFlagsCheck st t).markers = st.markers :=
  congrArg (fun x => x.2.2.1) (refFlagsCheck_lexFrame st t)

theorem keywordsExtract_markers (st : ScanState) (t : Chars) :
    (keywordsExtract st t).markers = st.markers := rfl

theorem invalidExtract_markers (st : ScanState) (t : Chars) :
    (invalidExtract st t).markers = st.markers := rfl

theorem fqdnExtract_markers (st : ScanState) (t : Chars) :
    (fqdnExtract st t).markers = st.markers := rfl

theorem ipExtract_markers (st : ScanState) (t : Chars) :
    (ipExtract st t).markers = st.markers := rfl

theorem headerLeftSteps_secStarts (st : ScanState) (left : Chars) :
    secStarts (headerLeftSteps st left).1 = secStarts st := by
  unfold headerLeftSteps headerLeftSteps.afterObsoletes
  repeat' split
  all_goals rfl

theorem headerRightSteps_secStarts (st : ScanState) (r : Option Chars) :
    secStarts (headerRightSteps st r) = secStarts st := by
  unfold headerRightSteps
  repeat' split
  all_goals rfl

theorem headerContinuation_secStarts (st : ScanState) (line t : Chars) :
    secStarts (headerContinuation st line t).1 = secStarts st := by
  unfold headerContinuation
  split
  · rfl
  · rw [andThen_frame secStarts _ _ (fun s => headerRightSteps_secStarts s _)]
    rw [headerLeftSteps_secStarts]
    rfl

theorem subsectionDetection_secStarts (st : ScanState) (t : Chars) :
    secStarts (subsectionDetection st t) = secStarts st := by
  unfold subsectionDetection
  repeat' split
  all_goals rfl

theorem contentAppend_secStarts (st : ScanState) (t : Chars) :
    secStarts (contentAppend st t) = secStarts st := by
  unfold contentAppend
  repeat' split
  all_goals rfl

theorem sectionDetection_secStarts (st : ScanState) (t : Chars)
    (hfind : findSectionMatch t = none) :
    secStarts (sectionDetection st t) = secStarts st := by
  unfold sectionDetection ScanState.withMarker
  rw [hfind]
  repeat' (first | rfl | (try dsimp only); split)
  all_goals (rename_i k heq h; clear heq h; cases k <;> rfl)

theorem afterHeaderBlocks_secStarts (st : ScanState) (line t : Chars)
    (htne : t ≠ "Abstract".toList) (hfind : findSectionMatch t = none) :
    secStarts (afterHeaderBlocks st line t).1 = secStarts st := by
  unfold afterHeaderBlocks
  repeat' (first | rfl | (try dsimp only); split)
  all_goals try (exact absurd (by assumption) htne)
  all_goals try simp only [contentAppend_secStarts, subsectionDetection_secStarts]
  all_goals try rfl
  all_goals (rw [sectionDetection_secStarts _ _ hfind]; try rfl)

theorem structuralPhase_secStarts (st : ScanState) (line t : Chars)
    (htne : t ≠ "Abstract".toList) (hfind : findSectionMatch t = none) :
    secStarts (structuralPhase st line t).1 = secStarts st := by
  unfold structuralPhase
  split
  · split <;> rfl
  · rw [andThen_frame secStarts _ _ (fun s => afterHeaderBlocks_secStarts s line t htne hfind)]
    split
    · rw [headerContinuation_secStarts]
    · rfl

theorem secStarts_get (st1 st2 : ScanState) (h : secStarts st1 = secStarts st2)
    (k : SectionKey) : (st1.markers.get k).start = (st2.markers.get k).start := by
  cases k
  · exact congrArg (fun x => x.1) h
  · exact congrArg (fun x => x.2.1) h
  · exact congrArg (fun x => x.2.2.1) h
  · exact congrArg (fun x => x.2.2.2.1) h
  · exact congrArg (fun x => x.2.2.2.2.1) h
  · exact congrArg (fun x => x.2.2.2.2.2) h

theorem stepLine_TOC_secStarts (st : ScanState) (line : Chars)
    (htoc : TOC_PATTERN (jsTrim line) = true) :
    secStarts (stepLine st line).1 = secStarts st := by
  have htne : jsTrim line ≠ "Abstract".toList := by
    intro he
    rw [he] at htoc
    exact absurd htoc (by decide)
  have hfind := findSectionMatch_none_of_TOC _ htoc
  unfold stepLine
  dsimp only
  split
  · rfl
  · split
    · rfl
    · rw [structuralPhase_secStarts _ line (jsTrim line) htne hfind]
      unfold secStarts
      simp only [ipExtract_markers, fqdnExtract_markers, invalidExtract_markers,
        keywordsExtract_markers, refFlagsCheck_markers, draftRefExtract_markers,
        rfcRefExtract_markers, inlineCodeCheck_markers]
      split <;> split <;> rfl

/-! ## The table path of section detection closes the open section
before opening the matched one (source lines 465-480) -/

theorem content_get_set (c : ContentData) (k : SectionKey) (v : Option (List Chars))
    (j : SectionKey) : (c.set k v).get j = if j = k then v else c.get j := by
  cases k <;> cases j <;> simp [ContentData.get, ContentData.set]

theorem sectionDetection_open_close (st : ScanState) (t : Chars) (j k : SectionKey)
    (hcand : SECTION_PATTERN t = true ∨ AUTHOR_SECTION_RE t = true)
    (hcs : st.currentSection = some j) (hopen : (st.markers.get j).closed = false)
    (hfind : findSectionMatch t = some k) (hjk : j ≠ k) :
    (sectionDetection st t).currentSection = some k ∧
    (sectionDetection st t).markers.get j =
      { st.markers.get j with endIdx := st.lineIdx - 1, closed := true } ∧
    ((sectionDetection st t).markers.get k).start = st.lineIdx ∧
    (sectionDetection st t).data.content.get k = some [] := by
  unfold sectionDetection ScanState.withMarker
  rw [if_pos hcand, hcs, hfind]
  dsimp only
  rw [if_pos (by rw [hopen]; exact Bool.false_ne_true)]
  refine ⟨rfl, ?_, ?_, ?_⟩
  · rw [markers_get_set, if_neg hjk, markers_get_set, if_pos rfl]
  · rw [markers_get_set, if_pos rfl]
  · rw [content_get_set, if_pos rfl]

end Idnits

namespace Idnits

/-! ## The ten claims -/

/-- C1: the determinism claim fails in the source.  The module-level
`INLINE_CODE_FORMAT` regex keeps its `lastIndex` across `parse`
calls, so parsing the same two-line input twice in one process gives
two different records: the first call reports inline-code comment
issues on lines 1 and 2, the second call misses the one on line 1
because the cursor left by the previous call skips past it. -/
theorem C1_shared_state_divergence :
    (parsedData c1first.1).map (fun d => d.possibleIssues.inlineCode) =
      some [⟨1, 1⟩, ⟨2, 3⟩] ∧
    (parsedData c1second.1).map (fun d => d.possibleIssues.inlineCode) =
      some [⟨2, 3⟩] := by
  decide

/-- C2 (amended): a line matching `TOC_PATTERN` (periods then a page
number) never opens a section: every tracked section marker keeps its
`start` value across the processing of that line.  The original claim
also said such a line never closes the open section, which is false:
the section-candidate test of the source has no TOC guard. -/
theorem C2_toc_never_opens (st : ScanState) (line : Chars)
    (htoc : TOC_PATTERN (jsTrim line) = true) (k : SectionKey) :
    ((stepLine st line).1.markers.get k).start = (st.markers.get k).start :=
  secStarts_get _ _ (stepLine_TOC_secStarts st line htoc) k

/-- Witness for C2: the concrete TOC lookalike line, processed in a
state with the Introduction section open, leaves the Introduction
start untouched. -/
theorem C2_toc_never_opens_witness :
    TOC_PATTERN (jsTrim tocLineC2) = true ∧
    ((stepLine witnessScanState tocLineC2).1.markers.get SectionKey.introduction).start =
      (witnessScanState.markers.get SectionKey.introduction).start :=
  ⟨by decide, C2_toc_never_opens witnessScanState tocLineC2 (by decide) SectionKey.introduction⟩

/-- Counterexample for C2: in `docC2raw` the TOC lookalike on line 6
closes the Introduction opened on line 5 (`endIdx = 5`,
`closed = true`), refuting the never-closes half of the claim. -/
theorem C2_counterexample :
    (splitLines docC2raw)[5]? = some tocLineC2 ∧
    TOC_PATTERN (jsTrim tocLineC2) = true ∧
    (parsedData (parse initialRegexState docC2raw []).1).map
      (fun d => d.markers.introduction) =
      some { start := 5, endIdx := 5, closed := true } := by
  decide

/-- C3 (amended): on the table path of section detection, a candidate
line that matches a tracked section closes the previously open
section (end set to the previous line, closed flag raised) and then
opens the matched one (start set to the current line, content buffer
initialized).  The original invariant is false for the Abstract
special case, which opens without closing the previous section. -/
theorem C3_close_before_open (st : ScanState) (t : Chars) (j k : SectionKey)
    (hcand : SECTION_PATTERN t = true ∨ AUTHOR_SECTION_RE t = true)
    (hcs : st.currentSection = some j) (hopen : (st.markers.get j).closed = false)
    (hfind : findSectionMatch t = some k) (hjk : j ≠ k) :
    (sectionDetection st t).currentSection = some k ∧
    (sectionDetection st t).markers.get j =
      { st.markers.get j with endIdx := st.lineIdx - 1, closed := true } ∧
    ((sectionDetection st t).markers.get k).start = st.lineIdx ∧
    (sectionDetection st t).data.content.get k = some [] :=
  sectionDetection_open_close st t j k hcand hcs hopen hfind hjk

/-- Witness for C3: a References header processed while the
Introduction is open closes the Introduction and opens References. -/
theorem C3_close_before_open_witness :
    (sectionDetection witnessScanState "5.  References".toList).currentSection =
      some SectionKey.references ∧
    (sectionDetection witnessScanState "5.  References".toList).markers.get
        SectionKey.introduction =
      { witnessScanState.markers.get SectionKey.introduction with
          endIdx := witnessScanState.lineIdx - 1, closed := true } ∧
    ((sectionDetection witnessScanState "5.  References".toList).markers.get
        SectionKey.references).start = witnessScanState.lineIdx ∧
    (sectionDetection witnessScanState "5.  References".toList).data.content.get
        SectionKey.references = some [] :=
  C3_close_before_open witnessScanState "5.  References".toList
    SectionKey.introduction SectionKey.references
    (Or.inl (by decide)) (by decide) (by decide) (by decide) (by decide)

/-- Counterexample for C3: in `docC3raw` the `Abstract` line opens the
abstract section while the Introduction opened on line 5 stays open
(`closed = false`), so the previously open section was not closed
first. -/
theorem C3_counterexample :
    (parsedData (parse initialRegexState docC3raw []).1).map
      (fun d => (d.markers.introduction, d.markers.abstract)) =
      some ({ start := 5, endIdx := 0, closed := false },
            { start := 6, endIdx := 6, closed := true }) := by
  decide

/-- C4: for every input, `parse` returns either a complete document
record or the single typed `TXT_PARSING_FAILED` error whose message
carries the 1-based line number the scan was at (between 1 and the
number of physical lines) and the original exception message; no
partially filled record is ever returned. -/
theorem C4_failure_surface (rs : RegexState) (raw fn : Chars) :
    (∃ doc rs2, parse rs raw fn = (.ok doc, rs2)) ∨
    (∃ n msg rs2, parse rs raw fn = (.error (txtParsingFailed n msg), rs2) ∧
      1 ≤ n ∧ n ≤ (splitLines raw).length) :=
  parse_shape rs raw fn

/-- C5 (amended): on every line that does not contain a form feed,
all lexical extractors run on the content: every RFC citation, draft
citation, RFC 2119 keyword, invalid keyword combination, FQDN and
IPv4 or IPv6 token matched on that line is recorded in the resulting
state.  The original claim said this for every physical line, which
is false: a form-feed line only bumps the page counter and its
content is skipped by every extractor. -/
theorem C5_extraction_total (st : ScanState) (line : Chars)
    (hff : containsFF line = false) :
    (∀ num ∈ RFC_REFERENCE_RE_numbers (jsTrim line),
        rfcRecordedAnywhere (stepLine st line).1.data.extractedElements num) ∧
    (∀ nm ∈ NON_RFC_REFERENCE_RE_matches (jsTrim line),
        draftRecordedAnywhere (stepLine st line).1.data.extractedElements nm) ∧
    (∀ m ∈ KEYWORDS_PATTERN_matches (jsTrim line),
        (⟨m.2, st.lineIdx + 1⟩ : KeywordHit) ∈
          (stepLine st line).1.data.extractedElements.keywords2119) ∧
    (∀ m ∈ INVALID_COMBINATIONS_PATTERN_matches line,
        (⟨m.2, st.lineIdx + 1, m.1 + 1⟩ : MisspellIssue) ∈
          (stepLine st line).1.data.possibleIssues.misspeled2119Keywords) ∧
    (∀ d ∈ FQDN_RE_domains (jsTrim line),
        d ∈ (stepLine st line).1.data.extractedElements.fqdnDomains) ∧
    (∀ a ∈ IPV4_LOOSE_RE_matches (jsTrim line),
        a ∈ (stepLine st line).1.data.extractedElements.ipv4) ∧
    (∀ a ∈ IPV6_LOOSE_RE_matches (jsTrim line),
        a ∈ (stepLine st line).1.data.extractedElements.ipv6) :=
  stepLine_extraction_total st line hff

/-- Witness for C5: the citation `RFC 2119` on a concrete body line
is recorded. -/
theorem C5_extraction_total_witness :
    containsFF c5line = false ∧
    rfcRecordedAnywhere (stepLine witnessScanState c5line).1.data.extractedElements
      ['2', '1', '1', '9'] :=
  ⟨by decide,
   (C5_extraction_total witnessScanState c5line (by decide)).1 ['2', '1', '1', '9'] (by decide)⟩

/-- Counterexample for C5: line 2 of `docC5raw` holds a form feed and
the token `RFC 1234`; the matcher finds the number on that line, yet
the parsed record has it in neither citation list. -/
theorem C5_counterexample :
    (splitLines docC5raw)[1]? = some (['\x0c'] ++ "RFC 1234".toList) ∧
    RFC_REFERENCE_RE_numbers (jsTrim (['\x0c'] ++ "RFC 1234".toList)) =
      [['1', '2', '3', '4']] ∧
    (parsedData (parse initialRegexState docC5raw []).1).map
      (fun d => (d.pageCount, d.extractedElements.nonReferenceSectionRfc,
                 d.extractedElements.referenceSectionRfc)) =
      some (2, [], []) := by
  decide

/-- C6 (amended): for the concrete header scenario the parsed record
has the first author named `Z. Zhang` with organization `Arrcus` and
`obsoletes = ["5678", "1234"]`, but `header.source` is `idr` followed
by eighteen spaces, not the bare `idr` of the claim: the left capture
group of `LINE_VALUES_EXTRACT_RE` is greedy, so it keeps all padding
up to the last two spaces of the separating run. -/
theorem C6_header_scenario :
    (parsedData (parse initialRegexState docC6raw []).1).map
      (fun d => (d.header.source, d.header.authors, d.header.obsoletes)) =
      some (some ("idr".toList ++ List.replicate 18 ' '),
            [⟨"Z. Zhang".toList, some "Arrcus".toList⟩],
            some ["5678".toList, "1234".toList]) := by
  decide

/-- Counterexample for C6: the parsed `header.source` is not the bare
string `idr`. -/
theorem C6_counterexample :
    (parsedData (parse initialRegexState docC6raw []).1).map
      (fun d => d.header.source) =
      some (some ("idr".toList ++ List.replicate 18 ' ')) ∧
    "idr".toList ++ List.replicate 18 ' ' ≠ "idr".toList := by
  decide

/-- C7 (amended): the page counter is one plus the number of physical
lines containing a form feed, not the number of form-feed characters:
the source tests `line.includes` once per line, so two page breaks on
one line count once. -/
theorem C7_page_count (rs : RegexState) (raw fn : Chars) (doc : TXTDoc)
    (rs2 : RegexState) (h : parse rs raw fn = (.ok doc, rs2)) :
    doc.data.pageCount = 1 + (splitLines raw).countP containsFF :=
  parse_ok_pageCount rs raw fn doc rs2 h

/-- Witness for C7: the body with its two form feeds on different
lines parses with `pageCount = 3`. -/
theorem C7_page_count_witness :
    (parse initialRegexState docC7braw []).1.toOption.map
      (fun doc => doc.data.pageCount) = some 3 := by
  rcases hp : parse initialRegexState docC7braw [] with ⟨r, rs2⟩
  cases r with
  | error e =>
    have h0 : ((parse initialRegexState docC7braw []).1.toOption.map
        (fun doc => doc.data.pageCount)).isSome = true := by decide
    rw [hp] at h0
    simp [Except.toOption] at h0
  | ok doc =>
    have hpc := C7_page_count initialRegexState docC7braw [] doc rs2 hp
    have h2 : (splitLines docC7braw).countP containsFF = 2 := by decide
    show some doc.data.pageCount = some 3
    rw [hpc, h2]

/-- Counterexample for C7: a body with two form-feed characters on
the same physical line yields `pageCount = 2`, not the 3 the claim
expects. -/
theorem C7_counterexample :
    docC7araw.count '\x0c' = 2 ∧
    (parsedData (parse initialRegexState docC7araw []).1).map
      (fun d => d.pageCount) = some 2 := by
  decide

/-- C8: the citation round trip of the claim: `RFC 1234` outside any
References section lands in `nonReferenceSectionRfc`, `[RFC5678]`
inside the open References section under the Normative References
subsection lands in `referenceSectionRfc` tagged with that
subsection, and neither value crosses into the other list. -/
theorem C8_citation_roundtrip :
    (parsedData (parse initialRegexState docC8raw []).1).map
      (fun d => (d.extractedElements.nonReferenceSectionRfc,
                 d.extractedElements.referenceSectionRfc,
                 d.extractedElements.nonReferenceSectionRfc.contains "5678".toList,
                 (d.extractedElements.referenceSectionRfc.map (·.value)).contains
                   "1234".toList)) =
      some ([['1', '2', '3', '4']],
            [⟨['5', '6', '7', '8'], some SubKey.normative_references⟩],
            false, false) := by
  decide

/-- C9: the boilerplate classification is mutually distinguishing:
the document with the exact canonical RFC 2119 sentence gets
`rfc2119 = true` and `similar2119boilerplate = false`; the document
with only fragments of it (the keyword list without the
interpretation clause and citation) gets `rfc2119 = false` and
`similar2119boilerplate = true`. -/
theorem C9_boilerplate_distinguishing :
    (parsedData (parse initialRegexState docC9araw []).1).map
      (fun d => (d.boilerplate.rfc2119, d.boilerplate.similar2119boilerplate)) =
      some (true, false) ∧
    (parsedData (parse initialRegexState docC9braw []).1).map
      (fun d => (d.boilerplate.rfc2119, d.boilerplate.similar2119boilerplate)) =
      some (false, true) := by
  decide

/-- C10: per-line citation extraction precedes the section-state
update of the same line: on any non-form-feed line, the citation
lists the line lands in are decided by the section state from before
the line (outside References both RFC and draft citations join the
non-reference lists and leave the reference lists untouched; inside
References the dual holds), even when the line itself changes the
current section. -/
theorem C10_extraction_order (st : ScanState) (line : Chars)
    (hff : containsFF line = false) :
    (st.currentSection ≠ some .references →
      (∀ num ∈ RFC_REFERENCE_RE_numbers (jsTrim line),
        num ∈ (stepLine st line).1.data.extractedElements.nonReferenceSectionRfc) ∧
      (stepLine st line).1.data.extractedElements.referenceSectionRfc =
        st.data.extractedElements.referenceSectionRfc ∧
      (∀ nm ∈ NON_RFC_REFERENCE_RE_matches (jsTrim line),
        nm ∈ (stepLine st line).1.data.extractedElements.nonReferenceSectionDraftReferences) ∧
      (stepLine st line).1.data.extractedElements.referenceSectionDraftReferences =
        st.data.extractedElements.referenceSectionDraftReferences) ∧
    (st.currentSection = some .references →
      (∀ num ∈ RFC_REFERENCE_RE_numbers (jsTrim line),
        num ∈ (stepLine st line).1.data.extractedElements.referenceSectionRfc.map (·.value)) ∧
      (stepLine st line).1.data.extractedElements.nonReferenceSectionRfc =
        st.data.extractedElements.nonReferenceSectionRfc ∧
      (∀ nm ∈ NON_RFC_REFERENCE_RE_matches (jsTrim line),
        nm ∈ (stepLine st line).1.data.extractedElements.referenceSectionDraftReferences.map (·.value)) ∧
      (stepLine st line).1.data.extractedElements.nonReferenceSectionDraftReferences =
        st.data.extractedElements.nonReferenceSectionDraftReferences) :=
  stepLine_extraction_order st line hff

/-- Witness for C10: a section-candidate line carrying `[RFC9999]`,
processed while the Introduction is the current section, records
`9999` in the non-reference list and leaves the reference list
untouched; a citation line processed inside the References section
records its number in the reference list. -/
theorem C10_extraction_order_witness :
    containsFF c10line = false ∧
    witnessScanState.currentSection ≠ some SectionKey.references ∧
    SECTION_PATTERN (jsTrim c10line) = true ∧
    ['9', '9', '9', '9'] ∈
      (stepLine witnessScanState c10line).1.data.extractedElements.nonReferenceSectionRfc ∧
    (stepLine witnessScanState c10line).1.data.extractedElements.referenceSectionRfc =
      witnessScanState.data.extractedElements.referenceSectionRfc ∧
    ['8', '8', '8', '8'] ∈
      ((stepLine witnessRefState c10refline).1.data.extractedElements.referenceSectionRfc.map
        (·.value)) :=
  ⟨by decide, by decide, by decide,
   ((C10_extraction_order witnessScanState c10line (by decide)).1 (by decide)).1
     ['9', '9', '9', '9'] (by decide),
   ((C10_extraction_order witnessScanState c10line (by decide)).1 (by decide)).2.1,
   ((C10_extraction_order witnessRefState c10refline (by decide)).2 (by decide)).1
     ['8', '8', '8', '8'] (by decide)⟩

end Idnits
